import Mathlib

/-!
# deploycontrol: the HADeployment controller

A shallow embedding of `pkg/controller.go/controller.go` (the controller that
turns an `HADeployment` into an `apps/v1` Deployment) and of
`pkg/apis/sahil.dev/v1alpha1/types.go`.

Stateful code is embedded by explicit state passing over a `World`: the work
queue, the Deployment API's state, and the ordered list of calls the controller
made on its collaborators (queue, lister, Deployment client, event recorder).
Collaborators that are not part of the repository (client-go's work queue and
key functions, the generated lister, the API server) are either parameters
(`Env`) or small models of the library behaviour the controller relies on.
Logging is not embedded.
-/

namespace DeployControl

/-! ## Data model -/

/-- The spec of an intent record: `HADeploymentSpec` of `types.go`
(`Replicas int32`, `Image string`). -/
structure HADeploymentSpec where
  Replicas : Int
  Image : String
deriving DecidableEq, Repr

/-- The custom resource `HADeployment` of `types.go`: the metadata fields the
controller reads (`Name`, `Namespace`), one bookkeeping field owned by the API
layer (`ResourceVersion`), and the spec. -/
structure HADeployment where
  Name : String
  Namespace : String
  ResourceVersion : String
  Spec : HADeploymentSpec
deriving DecidableEq, Repr

/-- A Go `map[string]string` of labels, kept as an association list in key order. -/
abbrev Labels := List (String × String)

/-- The fields of `metav1.ObjectMeta` that the controller sets. -/
structure ObjectMeta where
  Name : String
  Namespace : String
  Labels : Labels
deriving DecidableEq, Repr

/-- The fields of `corev1.Container` that the controller sets. -/
structure Container where
  Name : String
  Image : String
deriving DecidableEq, Repr

/-- The field of `corev1.PodSpec` that the controller sets. -/
structure PodSpec where
  Containers : List Container
deriving DecidableEq, Repr

/-- The pod template `corev1.PodTemplateSpec`. -/
structure PodTemplateSpec where
  Meta : ObjectMeta
  Spec : PodSpec
deriving DecidableEq, Repr

/-- The label selector `metav1.LabelSelector`. -/
structure LabelSelector where
  MatchLabels : Labels
deriving DecidableEq, Repr

/-- The fields of `appsv1.DeploymentSpec` that the controller sets; the two
pointer fields are options (`none` is Go's nil). -/
structure DeploymentSpec where
  Replicas : Option Int
  Selector : Option LabelSelector
  Template : PodTemplateSpec
deriving DecidableEq, Repr

/-- The child resource `appsv1.Deployment`. -/
structure Deployment where
  Meta : ObjectMeta
  Spec : DeploymentSpec
deriving DecidableEq, Repr

/-- Errors returned by the collaborators. -/
inductive Err where
  | noMeta
  | unexpectedKeyFormat (key : String)
  | notFound (ns name : String)
  | alreadyExists (ns name : String)
  | failure (msg : String)
deriving DecidableEq, Repr

/-- A value of Go type `interface{}` as it travels through the work queue.
`ptr a` is a `*HADeployment` (Go compares such items by address), `explicitKey k`
is a `cache.ExplicitKey`, and `str s` is a plain Go string, which carries no
object metadata. -/
inductive Item where
  | ptr (addr : Nat)
  | explicitKey (k : String)
  | str (s : String)
deriving DecidableEq, Repr

/-- An event handed to the recorder: `recorder.Event(object, eventtype, reason, message)`. -/
structure Event where
  object : HADeployment
  eventtype : String
  reason : String
  message : String
deriving DecidableEq, Repr

/-- One call of the controller on a collaborator. The constructors cover the
whole `workqueue.RateLimitingInterface` surface named by the specification
(`Add`, `Get`, `Done`, `Forget`, the backoff requeue `AddRateLimited`,
`ShutDown`), the lister lookup, the Deployment `Create` and the recorder.
`wqGet none` is a `Get` that reported shutdown. -/
inductive Call where
  | wqAdd (item : Item)
  | wqGet (item : Option Item)
  | wqDone (item : Item)
  | wqForget (item : Item)
  | wqAddRateLimited (item : Item)
  | wqShutDown
  | listerGet (ns name : String)
  | create (ns : String) (d : Deployment)
  | event (e : Event)
deriving DecidableEq, Repr

/-! ## The work queue -/

/-- Modelled from the spec: the work queue (`workqueue.RateLimitingInterface`
of client-go, created in `NewController`; its code is not part of the
repository). `queue` is the FIFO of pending items, `dirty` the set of items
that need processing, `processing` the set of items handed out by `Get` and
not yet marked done, `failures` the rate limiter's record of requeues (one
entry per backoff requeue of an item). -/
structure WorkQueue where
  queue : List Item
  dirty : List Item
  processing : List Item
  shuttingDown : Bool
  failures : List Item
deriving DecidableEq, Repr

/-- The result of `Get`: the caller is suspended (`blocked`: the queue is empty
and not shut down), or gets the shutdown indicator, or gets an item together
with the queue after the dequeue. -/
inductive GetResult where
  | blocked
  | shutDown
  | item (i : Item) (q : WorkQueue)
deriving DecidableEq, Repr

/-- The empty queue made by `workqueue.NewNamedRateLimitingQueue`. -/
def WorkQueue.new : WorkQueue :=
  { queue := [], dirty := [], processing := [], shuttingDown := false, failures := [] }

/-- Modelled from the spec: `Add(item)`, the idempotent enqueue that collapses
duplicate pending items. Nothing is added once the queue is shutting down; an
item already dirty is dropped; an item that is being processed is only marked
dirty (it is appended to the queue by `Done`). -/
def WorkQueue.Add (q : WorkQueue) (item : Item) : WorkQueue :=
  if q.shuttingDown then q
  else if item ∈ q.dirty then q
  else if item ∈ q.processing then { q with dirty := item :: q.dirty }
  else { q with dirty := item :: q.dirty, queue := q.queue ++ [item] }

/-- Modelled from the spec: `Get() -> (item, isShuttingDown)`. It blocks while
the queue is empty and not shut down, reports shutdown when the queue is empty
and shut down, and otherwise hands out the head of the queue, which moves from
the dirty set to the processing set. -/
def WorkQueue.Get (q : WorkQueue) : GetResult :=
  match q.queue with
  | [] => if q.shuttingDown then GetResult.shutDown else GetResult.blocked
  | item :: rest =>
    GetResult.item item
      { q with queue := rest,
               processing := if item ∈ q.processing then q.processing else item :: q.processing,
               dirty := q.dirty.filter (fun x => x ≠ item) }

/-- Modelled from the spec: `Done(item)` marks the in-flight processing of an
item complete; an item that was added again meanwhile (it is dirty) goes back
to the queue. -/
def WorkQueue.Done (q : WorkQueue) (item : Item) : WorkQueue :=
  let q1 := { q with processing := q.processing.filter (fun x => x ≠ item) }
  if item ∈ q.dirty then { q1 with queue := q1.queue ++ [item] } else q1

/-- Modelled from the spec: `Forget(item)` resets the item's retry/backoff
counter to zero; it touches nothing but the rate limiter's record. -/
def WorkQueue.Forget (q : WorkQueue) (item : Item) : WorkQueue :=
  { q with failures := q.failures.filter (fun x => x ≠ item) }

/-- Modelled from the spec: `ShutDown()` makes `Get` return the shutdown
indicator once the queue is drained. -/
def WorkQueue.ShutDown (q : WorkQueue) : WorkQueue :=
  { q with shuttingDown := true }

/-! ## Keys -/

/-- Go's `strings.Split(s, "/")` on the characters of a string; `acc` holds the
current part in reverse. -/
def splitSlashAux : List Char → List Char → List String
  | [], acc => [String.mk acc.reverse]
  | c :: cs, acc =>
    if c = '/' then String.mk acc.reverse :: splitSlashAux cs []
    else splitSlashAux cs (c :: acc)

/-- Go's `strings.Split(key, "/")`. -/
def splitSlash (key : String) : List String :=
  splitSlashAux key.data []

/-- client-go's `cache.MetaNamespaceKeyFunc`: an `ExplicitKey` is its own key;
an object with metadata gives `namespace/name`, or `name` alone when the
namespace is empty; anything else has no metadata. `deref` reads the object a
pointer refers to. -/
def MetaNamespaceKeyFunc (deref : Nat → HADeployment) : Item → Except Err String
  | Item.explicitKey k => Except.ok k
  | Item.str _ => Except.error Err.noMeta
  | Item.ptr a =>
    let o := deref a
    if o.Namespace.length > 0 then Except.ok (o.Namespace ++ "/" ++ o.Name)
    else Except.ok o.Name

/-- client-go's `cache.SplitMetaNamespaceKey`: one part is a name in the empty
namespace, two parts are namespace and name, anything else is an error. -/
def SplitMetaNamespaceKey (key : String) : Except Err (String × String) :=
  match splitSlash key with
  | [name] => Except.ok ("", name)
  | [ns, name] => Except.ok (ns, name)
  | _ => Except.error (Err.unexpectedKeyFormat key)

/-! ## The controller -/

/-- The state of the Deployment API: the Deployments stored, with their namespaces. -/
abbrev ApiState := List (String × Deployment)

/-- The collaborators the controller is constructed with, as far as a
processing pass reads them: the objects behind the pointers the informer
delivers, the lister (`c.kLister.HADeployments(ns).Get(name)`), and the
behaviour of `c.client.AppsV1().Deployments(ns).Create`. All three are
arbitrary; the content of the cache is taken as fixed over the passes of one
run. `klusterSynced t` is what the field `c.klusterSynced` (the informer's
`HasSynced`) answers once `t` of the events of a run of `Run` have happened. -/
structure Env where
  deref : Nat → HADeployment
  lister : String → String → Except Err HADeployment
  create : ApiState → String → Deployment → Except Err ApiState
  klusterSynced : Nat → Bool

/-- The mutable state around the controller. `calls` lists the calls made on
the collaborators, oldest first. -/
structure World where
  wq : WorkQueue
  api : ApiState
  calls : List Call
deriving DecidableEq, Repr

/-- Append one call to the record of calls. -/
def World.log (w : World) (c : Call) : World :=
  { w with calls := w.calls ++ [c] }

/-- The state right after `NewController`: a fresh queue, nothing called yet. -/
def NewController (api : ApiState) : World :=
  { wq := WorkQueue.new, api := api, calls := [] }

/-- Lines 114-117 of `controller.go`: the label map of the child. -/
def childLabels (ha : HADeployment) : Labels :=
  [("app", "nginx"), ("controller", ha.Name)]

/-- Lines 118-142 of `controller.go`: the Deployment literal `d` built from the
HADeployment the lister returned. -/
def buildDeployment (ha : HADeployment) : Deployment :=
  { Meta := { Name := ha.Name ++ "-deployment", Namespace := ha.Namespace, Labels := [] },
    Spec :=
      { Replicas := some ha.Spec.Replicas,
        Selector := some { MatchLabels := childLabels ha },
        Template :=
          { Meta := { Name := "", Namespace := "", Labels := childLabels ha },
            Spec := { Containers := [{ Name := ha.Name ++ "-container", Image := ha.Spec.Image }] } } } }

/-- Lines 95-152 of `controller.go`: the body of `processNextItem` after the
`defer`, for a dequeued item. It returns the boolean the function returns on
that path. -/
def processItem (env : Env) (item : Item) (w : World) : Bool × World :=
  match MetaNamespaceKeyFunc env.deref item with
  | Except.error _ => (false, w)
  | Except.ok key =>
    match SplitMetaNamespaceKey key with
    | Except.error _ => (false, w)
    | Except.ok (ns, name) =>
      let w1 := w.log (Call.listerGet ns name)
      match env.lister ns name with
      | Except.error _ => (false, w1)
      | Except.ok haDeployment =>
        let d := buildDeployment haDeployment
        let w2 := w1.log (Call.create ns d)
        match env.create w2.api ns d with
        | Except.error _ => (false, w2)
        | Except.ok api =>
          (true, { w2 with api := api }.log
            (Call.event { object := haDeployment, eventtype := "Normal", reason := "CREATE",
                          message := "Deployment was created" }))

/-- What a call of `processNextItem` comes to: it is suspended inside
`c.wq.Get()`, or it returns a boolean. -/
inductive Outcome where
  | blocked
  | returned (b : Bool)
deriving DecidableEq, Repr

/-- The method `processNextItem` (lines 87-153): `Get`; on shutdown return false;
otherwise run the body and then the deferred `Forget(item)`. -/
def processNextItem (env : Env) (w : World) : Outcome × World :=
  match w.wq.Get with
  | GetResult.blocked => (Outcome.blocked, w)
  | GetResult.shutDown => (Outcome.returned false, w.log (Call.wqGet none))
  | GetResult.item item q =>
    let w1 := { w with wq := q }.log (Call.wqGet (some item))
    let r := processItem env item w1
    (Outcome.returned r.1, { r.2 with wq := r.2.wq.Forget item }.log (Call.wqForget item))

/-- The method `handleAdd` (lines 155-158): `c.wq.Add(obj)`. -/
def handleAdd (obj : Item) (w : World) : World :=
  { w with wq := w.wq.Add obj }.log (Call.wqAdd obj)

/-- How a run of `worker` ends: its loop exited (`processNextItem` returned
false), or it is suspended inside `Get`. -/
inductive WorkerEnd where
  | exited
  | blocked
deriving DecidableEq, Repr

/-- The loop `for c.processNextItem() {}` of `worker` with a bound on the number
of passes; `none` means the bound was reached. -/
def workerLoop (env : Env) : Nat → World → Option (WorkerEnd × World)
  | 0, _ => none
  | fuel + 1, w =>
    match processNextItem env w with
    | (Outcome.blocked, w1) => some (WorkerEnd.blocked, w1)
    | (Outcome.returned false, w1) => some (WorkerEnd.exited, w1)
    | (Outcome.returned true, w1) => workerLoop env fuel w1

/-- The method `worker` (lines 81-85). Every pass that returns true takes one
item off the queue and the controller puts none back, so one pass more than the
queue is long is enough. -/
def worker (env : Env) (w : World) : Option (WorkerEnd × World) :=
  workerLoop env (w.wq.queue.length + 1) w

/-! ## Observing a run -/

/-- The key decoding of lines 95-105 as one step: `MetaNamespaceKeyFunc` on the
item, then `SplitMetaNamespaceKey` on the key. -/
def decodeItem (deref : Nat → HADeployment) (item : Item) : Except Err (String × String) :=
  match MetaNamespaceKeyFunc deref item with
  | Except.error e => Except.error e
  | Except.ok key => SplitMetaNamespaceKey key

/-- The state right after `Get` handed out `item` and left the queue `q`. -/
def dequeued (w : World) (item : Item) (q : WorkQueue) : World :=
  { wq := q, api := w.api, calls := w.calls ++ [Call.wqGet (some item)] }

/-- The calls made from state `w` to the later state `w1`. -/
def newCalls (w w1 : World) : List Call :=
  w1.calls.drop w.calls.length

/-- The calls one call of `processNextItem` makes from state `w`. -/
def passCalls (env : Env) (w : World) : List Call :=
  newCalls w (processNextItem env w).2

/-- The `Create` calls among a list of calls, with namespace and argument. -/
def createCalls (cs : List Call) : List (String × Deployment) :=
  cs.filterMap (fun c => match c with
    | Call.create ns d => some (ns, d)
    | _ => none)

/-- The events recorded among a list of calls. -/
def eventCalls (cs : List Call) : List Event :=
  cs.filterMap (fun c => match c with
    | Call.event e => some e
    | _ => none)

/-- Whether a call is a call on the work queue. -/
def Call.isQueueCall : Call → Bool
  | Call.wqAdd _ => true
  | Call.wqGet _ => true
  | Call.wqDone _ => true
  | Call.wqForget _ => true
  | Call.wqAddRateLimited _ => true
  | Call.wqShutDown => true
  | _ => false

/-- The calls on the work queue among a list of calls. -/
def queueCalls (cs : List Call) : List Call :=
  cs.filter Call.isQueueCall

/-- The items that `Get` handed out among a list of calls. -/
def gotItems (cs : List Call) : List Item :=
  cs.filterMap (fun c => match c with
    | Call.wqGet (some i) => some i
    | _ => none)

/-- The event of line 150 for a parent object. -/
def createdEvent (ha : HADeployment) : Event :=
  { object := ha, eventtype := "Normal", reason := "CREATE", message := "Deployment was created" }

/-! ## Concrete objects used to evaluate the definitions -/

/-- The object of the specification's scenario. -/
def web : HADeployment :=
  { Name := "web", Namespace := "default", ResourceVersion := "1",
    Spec := { Replicas := 3, Image := "nginx:1.21" } }

/-- An object with the key of `web` delivered by a second add event (the
object was deleted and created again, with another spec). -/
def webAgain : HADeployment :=
  { Name := "web", Namespace := "default", ResourceVersion := "7",
    Spec := { Replicas := 5, Image := "nginx:1.22" } }

/-- An object that is no longer in the cache when it is processed. -/
def ghost : HADeployment :=
  { Name := "ghost", Namespace := "default", ResourceVersion := "4",
    Spec := { Replicas := 1, Image := "busybox" } }

/-- A Deployment API that stores what is created and answers "already exists"
to a second `Create` of a name in a namespace. -/
def fakeCreate (api : ApiState) (ns : String) (d : Deployment) : Except Err ApiState :=
  if api.any (fun e => e.1 = ns ∧ e.2.Meta.Name = d.Meta.Name) then
    Except.error (Err.alreadyExists ns d.Meta.Name)
  else Except.ok (api ++ [(ns, d)])

/-- An environment: pointer 2 is `webAgain`, pointer 3 is `ghost`, every other
pointer is `web`; the cache holds `web` only and has synced from the start. -/
def demoEnv : Env :=
  { deref := fun a => if a = 2 then webAgain else if a = 3 then ghost else web,
    lister := fun ns name =>
      if ns = "default" ∧ name = "web" then Except.ok web
      else Except.error (Err.notFound ns name),
    create := fakeCreate,
    klusterSynced := fun _ => true }

/-- The environment `demoEnv` with a cache that never completes its sync. -/
def coldEnv : Env :=
  { demoEnv with klusterSynced := fun _ => false }

/-- A fresh controller after one add event for `web` (pointer 1). -/
def webQueued : World :=
  handleAdd (Item.ptr 1) (NewController [])

/-- The view of a `Create` call that the specification describes: the namespace
the call is issued in, and the name, namespace, replica count, container
images, selector match-labels and pod-template labels of its argument. -/
structure ChildView where
  createNamespace : String
  name : String
  childNamespace : String
  replicas : Option Int
  images : List String
  matchLabels : Option Labels
  templateLabels : Labels
deriving DecidableEq, Repr

/-- The view of one `Create` call. -/
def childView (c : String × Deployment) : ChildView :=
  { createNamespace := c.1,
    name := c.2.Meta.Name,
    childNamespace := c.2.Meta.Namespace,
    replicas := c.2.Spec.Replicas,
    images := c.2.Spec.Template.Spec.Containers.map Container.Image,
    matchLabels := c.2.Spec.Selector.map LabelSelector.MatchLabels,
    templateLabels := c.2.Spec.Template.Meta.Labels }

/-- The reference child of a parent, written from the specification's words:
name `<parent-name>-deployment`, the parent's namespace (also the namespace of
the call), replica count and image copied from the parent's spec, exactly one
container, and the labels `app: nginx`, `controller: <parent-name>` on both the
selector and the pod template. -/
def referenceChild (p : HADeployment) : ChildView :=
  { createNamespace := p.Namespace,
    name := p.Name ++ "-deployment",
    childNamespace := p.Namespace,
    replicas := some p.Spec.Replicas,
    images := [p.Spec.Image],
    matchLabels := some [("app", "nginx"), ("controller", p.Name)],
    templateLabels := [("app", "nginx"), ("controller", p.Name)] }

/-- The items whose retry counter `Forget` reset among a list of calls. -/
def forgotItems (cs : List Call) : List Item :=
  cs.filterMap (fun c => match c with
    | Call.wqForget i => some i
    | _ => none)

/-- The queue left by `Get` in `webQueued`. -/
def webTaken : WorkQueue :=
  { queue := [], dirty := [], processing := [Item.ptr 1], shuttingDown := false, failures := [] }

/-- A fresh controller after one add event for `ghost` (pointer 3), which the
cache no longer holds. -/
def ghostQueued : World :=
  handleAdd (Item.ptr 3) (NewController [])

/-- The queue left by `Get` in `ghostQueued`. -/
def ghostTaken : WorkQueue :=
  { queue := [], dirty := [], processing := [Item.ptr 3], shuttingDown := false, failures := [] }

/-- One add event for `web` when the Deployment `web-deployment` already exists. -/
def webQueuedAgain : World :=
  handleAdd (Item.ptr 1) (NewController [("default", buildDeployment web)])

/-- A controller whose empty queue has been shut down. -/
def shutWorld : World :=
  { wq := WorkQueue.ShutDown WorkQueue.new, api := [], calls := [] }

/-- A controller whose queue has been shut down while `web` (pointer 1) was
pending. -/
def shutWithWeb : World :=
  { wq := WorkQueue.ShutDown webQueued.wq, api := [], calls := [] }

/-- The lister lookups among a list of calls. -/
def listerCalls (cs : List Call) : List (String × String) :=
  cs.filterMap (fun c => match c with
    | Call.listerGet ns name => some (ns, name)
    | _ => none)

/-- A fresh controller after two add events for the key `default/web`: the
object at pointer 1, then the object created again under the same name at
pointer 2. -/
def webQueuedTwice : World :=
  handleAdd (Item.ptr 2) (handleAdd (Item.ptr 1) (NewController []))

/-- A fresh controller after one add event that delivered the object at
pointer 2, whose spec differs from what the cache holds for its key. -/
def staleQueued : World :=
  handleAdd (Item.ptr 2) (NewController [])

/-- The queue left by `Get` in `staleQueued`. -/
def staleTaken : WorkQueue :=
  { queue := [], dirty := [], processing := [Item.ptr 2], shuttingDown := false, failures := [] }

/-- A fresh controller after an add event for `ghost` (pointer 3) followed by
one for `web` (pointer 1). -/
def ghostThenWeb : World :=
  handleAdd (Item.ptr 1) (handleAdd (Item.ptr 3) (NewController []))

/-- The queue left by `Get` in `ghostThenWeb`. -/
def ghostThenWebTaken : WorkQueue :=
  { queue := [Item.ptr 1], dirty := [Item.ptr 1], processing := [Item.ptr 3],
    shuttingDown := false, failures := [] }

/-! ## Run and the goroutine it starts -/

/-- What can happen between the call of `Run` and the closing of the stop
channel `ch`: the informer delivers an add event to `handleAdd`, or one period
of waiting elapses (the one-second period of `wait.Until` once the worker
goroutine runs). A schedule is the list of these events in order; the channel is
closed when the schedule is used up. -/
inductive Ev where
  | add (obj : Item)
  | tick
deriving DecidableEq, Repr

/-- The controller's state together with the state of the goroutine started by
`go wait.Until(c.worker, time.Second, ch)`: `workerBlocked` says that the
goroutine is suspended inside `c.wq.Get()`; otherwise no call of `worker` is
under way. -/
structure Sys where
  w : World
  workerBlocked : Bool
deriving DecidableEq, Repr

/-- One event while no worker goroutine exists yet: an add event runs
`handleAdd`, elapsing time changes nothing. -/
def duringSync (w : World) : Ev → World
  | Ev.add obj => handleAdd obj w
  | Ev.tick => w

/-- client-go's `cache.WaitForCacheSync(ch, c.klusterSynced)` of line 71, from
time `t` on: it polls `klusterSynced`, at once and then after every event, and
returns true with the events still to come as soon as the answer is true; when
the channel is closed first it returns false (an answer of true at the poll made
at once counts even then). The result is the boolean, the rest of the schedule
and the state. -/
def WaitForCacheSync (synced : Nat → Bool) : Nat → List Ev → World → Bool × List Ev × World
  | t, [], w => (decide (t = 0) && synced t, [], w)
  | t, ev :: rest, w =>
    if synced t then (true, ev :: rest, w)
    else WaitForCacheSync synced (t + 1) rest (duringSync w ev)

/-- One run of `worker` inside the goroutine, up to the point where it returns or
is suspended in `Get`. -/
def runWorker (env : Env) (w : World) : Sys :=
  match worker env w with
  | some (WorkerEnd.blocked, w1) => { w := w1, workerBlocked := true }
  | some (WorkerEnd.exited, w1) => { w := w1, workerBlocked := false }
  | none => { w := w, workerBlocked := false }

/-- One event while the loop of `wait.Until` runs and the channel is open. An add
event runs `handleAdd`; the queue's `Add` wakes a worker suspended in `Get`,
which goes on with its loop. When the period elapses `wait.Until` calls `worker`
again, unless the previous call is still suspended. The passes of the worker are
taken as atomic. -/
def stepEv (env : Env) (s : Sys) : Ev → Sys
  | Ev.add obj =>
    if s.workerBlocked then runWorker env (handleAdd obj s.w)
    else { s with w := handleAdd obj s.w }
  | Ev.tick => if s.workerBlocked then s else runWorker env s.w

/-- client-go's `wait.Until(c.worker, time.Second, ch)` of line 75, with the
events `sched` still to come before `ch` is closed: it first looks at the
channel and returns without calling `worker` when it is closed (no event is
left); otherwise it calls `worker` at once and again after each period, until
the channel is closed. The result is the state at the closing of the channel. -/
def Until (env : Env) (sched : List Ev) (w : World) : Sys :=
  match sched with
  | [] => { w := w, workerBlocked := false }
  | ev :: rest => (ev :: rest).foldl (stepEv env) (runWorker env w)

/-- The method `Run` (lines 70-79) up to its return, for the schedule `sched` of
events that happen before `ch` is closed: the wait for the cache sync (its
result only decides a log line), the goroutine `wait.Until(c.worker, ...)` on
the rest of the schedule, the receive `<-ch`, and the return of `nil` (`none`).
The second component is the state left behind when `Run` returns. -/
def Run (env : Env) (sched : List Ev) (w : World) : Option Err × Sys :=
  let synced := WaitForCacheSync env.klusterSynced 0 sched w
  (none, Until env synced.2.1 synced.2.2)

/-! ## Lemmas on the work queue and on one processing pass -/

theorem get_item_queue {q q1 : WorkQueue} {item : Item} (h : q.Get = GetResult.item item q1) :
    q.queue = item :: q1.queue ∧ q1.shuttingDown = q.shuttingDown ∧ q1.failures = q.failures
      ∧ item ∈ q1.processing ∧ item ∉ q1.dirty := by
  unfold WorkQueue.Get at h
  split at h
  · split at h <;> simp at h
  · rename_i i rest hq
    simp only [GetResult.item.injEq] at h
    obtain ⟨hi, hq1⟩ := h
    subst hi
    subst hq1
    refine ⟨hq, rfl, rfl, ?_, ?_⟩
    · simp only
      split
      · assumption
      · simp
    · simp

theorem get_blocked_iff (q : WorkQueue) :
    q.Get = GetResult.blocked ↔ q.queue = [] ∧ q.shuttingDown = false := by
  unfold WorkQueue.Get
  split
  · rename_i hq
    by_cases hs : q.shuttingDown <;> simp [hs, hq]
  · rename_i i rest hq
    simp [hq]

theorem get_shutDown_iff (q : WorkQueue) :
    q.Get = GetResult.shutDown ↔ q.queue = [] ∧ q.shuttingDown = true := by
  unfold WorkQueue.Get
  split
  · rename_i hq
    by_cases hs : q.shuttingDown <;> simp [hs, hq]
  · rename_i i rest hq
    simp [hq]

theorem processItem_decode_error (env : Env) (item : Item) (w : World) (e : Err)
    (h : decodeItem env.deref item = Except.error e) :
    processItem env item w = (false, w) := by
  unfold decodeItem at h
  unfold processItem
  split at h
  · rename_i e1 hm
    simp [hm]
  · rename_i key hm
    simp [hm, h]

theorem processItem_lister_error (env : Env) (item : Item) (w : World) (ns name : String)
    (e : Err) (hk : decodeItem env.deref item = Except.ok (ns, name))
    (hl : env.lister ns name = Except.error e) :
    processItem env item w = (false, w.log (Call.listerGet ns name)) := by
  unfold decodeItem at hk
  unfold processItem
  split at hk
  · simp at hk
  · rename_i key hm
    simp [hm, hk, hl]

theorem processItem_create_error (env : Env) (item : Item) (w : World) (ns name : String)
    (p : HADeployment) (e : Err) (hk : decodeItem env.deref item = Except.ok (ns, name))
    (hl : env.lister ns name = Except.ok p)
    (hc : env.create w.api ns (buildDeployment p) = Except.error e) :
    processItem env item w
      = (false, (w.log (Call.listerGet ns name)).log (Call.create ns (buildDeployment p))) := by
  unfold decodeItem at hk
  unfold processItem
  split at hk
  · simp at hk
  · rename_i key hm
    simp [hm, hk, hl, World.log, hc]

theorem processItem_success (env : Env) (item : Item) (w : World) (ns name : String)
    (p : HADeployment) (api : ApiState) (hk : decodeItem env.deref item = Except.ok (ns, name))
    (hl : env.lister ns name = Except.ok p)
    (hc : env.create w.api ns (buildDeployment p) = Except.ok api) :
    processItem env item w
      = (true, { wq := w.wq, api := api,
                 calls := w.calls ++ [Call.listerGet ns name, Call.create ns (buildDeployment p),
                                      Call.event (createdEvent p)] }) := by
  unfold decodeItem at hk
  unfold processItem
  split at hk
  · simp at hk
  · rename_i key hm
    simp [hm, hk, hl, World.log, hc, createdEvent]

theorem pass_item (env : Env) (w : World) (item : Item) (q : WorkQueue)
    (hget : w.wq.Get = GetResult.item item q) :
    processNextItem env w
      = (Outcome.returned (processItem env item (dequeued w item q)).1,
         { wq := WorkQueue.Forget (processItem env item (dequeued w item q)).2.wq item,
           api := (processItem env item (dequeued w item q)).2.api,
           calls := (processItem env item (dequeued w item q)).2.calls
                      ++ [Call.wqForget item] }) := by
  simp [processNextItem, hget, World.log, dequeued]

theorem pass_blocked (env : Env) (w : World) (hget : w.wq.Get = GetResult.blocked) :
    processNextItem env w = (Outcome.blocked, w) := by
  simp [processNextItem, hget]

theorem pass_shutDown (env : Env) (w : World) (hget : w.wq.Get = GetResult.shutDown) :
    processNextItem env w
      = (Outcome.returned false,
         { wq := w.wq, api := w.api, calls := w.calls ++ [Call.wqGet none] }) := by
  simp [processNextItem, hget, World.log]

theorem pass_decode_error (env : Env) (w : World) (item : Item) (q : WorkQueue) (e : Err)
    (hget : w.wq.Get = GetResult.item item q)
    (hk : decodeItem env.deref item = Except.error e) :
    processNextItem env w
      = (Outcome.returned false,
         { wq := q.Forget item, api := w.api,
           calls := w.calls ++ [Call.wqGet (some item), Call.wqForget item] }) := by
  rw [pass_item env w item q hget, processItem_decode_error env item _ e hk]
  simp [dequeued]

theorem pass_lister_error (env : Env) (w : World) (item : Item) (q : WorkQueue)
    (ns name : String) (e : Err)
    (hget : w.wq.Get = GetResult.item item q)
    (hk : decodeItem env.deref item = Except.ok (ns, name))
    (hl : env.lister ns name = Except.error e) :
    processNextItem env w
      = (Outcome.returned false,
         { wq := q.Forget item, api := w.api,
           calls := w.calls ++ [Call.wqGet (some item), Call.listerGet ns name,
                                Call.wqForget item] }) := by
  rw [pass_item env w item q hget, processItem_lister_error env item _ ns name e hk hl]
  simp [World.log, dequeued]

theorem pass_create_error (env : Env) (w : World) (item : Item) (q : WorkQueue)
    (ns name : String) (p : HADeployment) (e : Err)
    (hget : w.wq.Get = GetResult.item item q)
    (hk : decodeItem env.deref item = Except.ok (ns, name))
    (hl : env.lister ns name = Except.ok p)
    (hc : env.create w.api ns (buildDeployment p) = Except.error e) :
    processNextItem env w
      = (Outcome.returned false,
         { wq := q.Forget item, api := w.api,
           calls := w.calls ++ [Call.wqGet (some item), Call.listerGet ns name,
                                Call.create ns (buildDeployment p), Call.wqForget item] }) := by
  rw [pass_item env w item q hget,
    processItem_create_error env item _ ns name p e hk hl (by simpa [dequeued] using hc)]
  simp [World.log, dequeued]

theorem pass_success (env : Env) (w : World) (item : Item) (q : WorkQueue)
    (ns name : String) (p : HADeployment) (api : ApiState)
    (hget : w.wq.Get = GetResult.item item q)
    (hk : decodeItem env.deref item = Except.ok (ns, name))
    (hl : env.lister ns name = Except.ok p)
    (hc : env.create w.api ns (buildDeployment p) = Except.ok api) :
    processNextItem env w
      = (Outcome.returned true,
         { wq := q.Forget item, api := api,
           calls := w.calls ++ [Call.wqGet (some item), Call.listerGet ns name,
                                Call.create ns (buildDeployment p),
                                Call.event (createdEvent p), Call.wqForget item] }) := by
  rw [pass_item env w item q hget,
    processItem_success env item _ ns name p api hk hl (by simpa [dequeued] using hc)]
  simp [dequeued]

theorem newCalls_append (w w1 : World) (cs : List Call) (h : w1.calls = w.calls ++ cs) :
    newCalls w w1 = cs := by
  simp [newCalls, h]

theorem pass_cases (env : Env) (w : World) (item : Item) (q : WorkQueue)
    (hget : w.wq.Get = GetResult.item item q) :
    ∃ body : List Call, (∀ c ∈ body, c.isQueueCall = false)
      ∧ (processNextItem env w).2.calls
          = w.calls ++ (Call.wqGet (some item) :: body ++ [Call.wqForget item])
      ∧ (processNextItem env w).2.wq = q.Forget item
      ∧ ∃ b, (processNextItem env w).1 = Outcome.returned b := by
  cases hk : decodeItem env.deref item with
  | error e =>
    refine ⟨[], by simp, ?_, ?_, false, ?_⟩ <;> simp [pass_decode_error env w item q e hget hk]
  | ok key =>
    obtain ⟨ns, name⟩ := key
    cases hl : env.lister ns name with
    | error e =>
      refine ⟨[Call.listerGet ns name], by simp [Call.isQueueCall], ?_, ?_, false, ?_⟩ <;>
        simp [pass_lister_error env w item q ns name e hget hk hl]
    | ok p =>
      cases hc : env.create w.api ns (buildDeployment p) with
      | error e =>
        refine ⟨[Call.listerGet ns name, Call.create ns (buildDeployment p)],
          by simp [Call.isQueueCall], ?_, ?_, false, ?_⟩ <;>
          simp [pass_create_error env w item q ns name p e hget hk hl hc]
      | ok api =>
        refine ⟨[Call.listerGet ns name, Call.create ns (buildDeployment p),
          Call.event (createdEvent p)], by simp [Call.isQueueCall], ?_, ?_, true, ?_⟩ <;>
          simp [pass_success env w item q ns name p api hget hk hl hc]

theorem filterMap_eq_nil_of_forall {α β : Type} (f : α → Option β) (l : List α)
    (h : ∀ a ∈ l, f a = none) : l.filterMap f = [] := by
  induction l with
  | nil => rfl
  | cons a t ih =>
    have ha : f a = none := h a (by simp)
    have ht : ∀ b ∈ t, f b = none := fun b hb => h b (by simp [hb])
    simp [List.filterMap_cons, ha, ih ht]

/-! ## The claims -/

/-- C1: when the lister returns `p` for the decoded key of a dequeued item and
`p.Namespace` is the decoded namespace, the one `Create` call of the pass is
issued in `p.Namespace` with a Deployment named `p.Name ++ "-deployment"` in
`p.Namespace`, with `p.Spec.Replicas` replicas, exactly one container whose
image is `p.Spec.Image`, and the labels `app: nginx`, `controller: p.Name` on
selector and pod template: it is the reference child of `p`. -/
theorem create_argument_is_reference_child (env : Env) (w : World) (item : Item)
    (q : WorkQueue) (ns name : String) (p : HADeployment)
    (hget : w.wq.Get = GetResult.item item q)
    (hk : decodeItem env.deref item = Except.ok (ns, name))
    (hl : env.lister ns name = Except.ok p)
    (hns : p.Namespace = ns) :
    (createCalls (passCalls env w)).map childView = [referenceChild p] := by
  subst hns
  cases hc : env.create w.api p.Namespace (buildDeployment p) with
  | error e =>
    have h := pass_create_error env w item q p.Namespace name p e hget hk hl hc
    simp [passCalls, newCalls, h, createCalls, childView, referenceChild, buildDeployment,
      childLabels]
  | ok api =>
    have h := pass_success env w item q p.Namespace name p api hget hk hl hc
    simp [passCalls, newCalls, h, createCalls, childView, referenceChild, buildDeployment,
      childLabels]

/-- The scenario of C1: `default/web` with 3 replicas of `nginx:1.21` gives one
`Create` in `default` of `web-deployment` with 3 replicas, image `nginx:1.21`
and labels `app: nginx`, `controller: web`. -/
theorem create_argument_is_reference_child_witness :
    webQueued.wq.Get = GetResult.item (Item.ptr 1) webTaken
      ∧ decodeItem demoEnv.deref (Item.ptr 1) = Except.ok ("default", "web")
      ∧ demoEnv.lister "default" "web" = Except.ok web
      ∧ (createCalls (passCalls demoEnv webQueued)).map childView = [referenceChild web]
      ∧ referenceChild web =
          { createNamespace := "default", name := "web-deployment",
            childNamespace := "default",
            replicas := some 3, images := ["nginx:1.21"],
            matchLabels := some [("app", "nginx"), ("controller", "web")],
            templateLabels := [("app", "nginx"), ("controller", "web")] } :=
  ⟨by decide, rfl, rfl,
   create_argument_is_reference_child demoEnv webQueued (Item.ptr 1) webTaken "default" "web" web
     (by decide) rfl rfl (by decide),
   by decide⟩

/-- C2: when the lister lookup for a dequeued item returns an error (not-found
included), the pass issues no `Create` call, records no event, and leaves the
Deployment API's state as it was. -/
theorem lister_error_no_create_no_event (env : Env) (w : World) (item : Item)
    (q : WorkQueue) (ns name : String) (e : Err)
    (hget : w.wq.Get = GetResult.item item q)
    (hk : decodeItem env.deref item = Except.ok (ns, name))
    (hl : env.lister ns name = Except.error e) :
    createCalls (passCalls env w) = [] ∧ eventCalls (passCalls env w) = []
      ∧ (processNextItem env w).2.api = w.api := by
  have h := pass_lister_error env w item q ns name e hget hk hl
  simp [passCalls, newCalls, h, createCalls, eventCalls]

/-- The instance of C2 for an object that is not in the cache any more. -/
theorem lister_error_no_create_no_event_witness :
    ghostQueued.wq.Get = GetResult.item (Item.ptr 3) ghostTaken
      ∧ decodeItem demoEnv.deref (Item.ptr 3) = Except.ok ("default", "ghost")
      ∧ demoEnv.lister "default" "ghost" = Except.error (Err.notFound "default" "ghost")
      ∧ createCalls (passCalls demoEnv ghostQueued) = []
      ∧ eventCalls (passCalls demoEnv ghostQueued) = []
      ∧ (processNextItem demoEnv ghostQueued).2.api = ghostQueued.api :=
  ⟨by decide, rfl, rfl,
   lister_error_no_create_no_event demoEnv ghostQueued (Item.ptr 3) ghostTaken "default" "ghost"
     (Err.notFound "default" "ghost") (by decide) rfl rfl⟩

theorem pass_queueCalls (env : Env) (w : World) :
    queueCalls (passCalls env w) = [] ∨ queueCalls (passCalls env w) = [Call.wqGet none]
      ∨ ∃ item, queueCalls (passCalls env w) = [Call.wqGet (some item), Call.wqForget item] := by
  cases hget : w.wq.Get with
  | blocked =>
    left
    simp [passCalls, newCalls, pass_blocked env w hget, queueCalls]
  | shutDown =>
    right; left
    simp [passCalls, newCalls, pass_shutDown env w hget, queueCalls, Call.isQueueCall]
  | item item q =>
    right; right
    obtain ⟨body, hbody, hcalls, -, -⟩ := pass_cases env w item q hget
    refine ⟨item, ?_⟩
    have hb : body.filter Call.isQueueCall = [] := by
      rw [List.filter_eq_nil_iff]
      intro c hc
      simp [hbody c hc]
    simp [passCalls, newCalls, hcalls, queueCalls, List.filter_cons, Call.isQueueCall, hb]

theorem pass_only_get_forget (env : Env) (w : World) (c : Call)
    (hc1 : c ∈ passCalls env w) (hc2 : c.isQueueCall = true) :
    (∃ i, c = Call.wqGet i) ∨ (∃ i, c = Call.wqForget i) := by
  have hmem : c ∈ queueCalls (passCalls env w) := by
    simp [queueCalls, List.mem_filter, hc1, hc2]
  rcases pass_queueCalls env w with h0 | h0 | ⟨i, h0⟩
  · simp [h0] at hmem
  · left
    exact ⟨none, by simpa [h0] using hmem⟩
  · rw [h0] at hmem
    simp only [List.mem_cons, List.mem_singleton, List.not_mem_nil, or_false] at hmem
    rcases hmem with hm | hm
    · exact Or.inl ⟨some i, hm⟩
    · exact Or.inr ⟨i, hm⟩

/-- C3: when the `Create` call for a dequeued item returns an error ("already
exists" is an error like any other), the pass records no event and returns
false, and the item is not put back: the queue calls of the pass are `Get` and
`Forget(item)`, the pending queue is what `Get` left, and the item is not marked
dirty. On every path of every pass the only queue calls are `Get` and `Forget`;
the backoff requeue `AddRateLimited` is never called. -/
theorem create_error_no_event_no_requeue (env : Env) (w : World) (item : Item)
    (q : WorkQueue) (ns name : String) (p : HADeployment) (e : Err)
    (hget : w.wq.Get = GetResult.item item q)
    (hk : decodeItem env.deref item = Except.ok (ns, name))
    (hl : env.lister ns name = Except.ok p)
    (hc : env.create w.api ns (buildDeployment p) = Except.error e) :
    eventCalls (passCalls env w) = []
      ∧ (processNextItem env w).1 = Outcome.returned false
      ∧ queueCalls (passCalls env w) = [Call.wqGet (some item), Call.wqForget item]
      ∧ (processNextItem env w).2.wq.queue = w.wq.queue.tail
      ∧ item ∉ (processNextItem env w).2.wq.dirty
      ∧ (∀ (env1 : Env) (w1 : World) (i : Item),
          Call.wqAddRateLimited i ∉ passCalls env1 w1 ∧ Call.wqAdd i ∉ passCalls env1 w1
            ∧ Call.wqDone i ∉ passCalls env1 w1 ∧ Call.wqShutDown ∉ passCalls env1 w1) := by
  have h := pass_create_error env w item q ns name p e hget hk hl hc
  obtain ⟨hq, -, -, -, hd⟩ := get_item_queue hget
  refine ⟨?_, ?_, ?_, ?_, ?_, ?_⟩
  · simp [passCalls, newCalls, h, eventCalls]
  · simp [h]
  · simp [passCalls, newCalls, h, queueCalls, List.filter_cons, Call.isQueueCall]
  · simp [h, hq, WorkQueue.Forget]
  · simpa [h, WorkQueue.Forget] using hd
  · intro env1 w1 i
    have key := pass_only_get_forget env1 w1
    refine ⟨?_, ?_, ?_, ?_⟩
    · intro hm
      rcases key _ hm rfl with ⟨j, hj⟩ | ⟨j, hj⟩ <;> cases hj
    · intro hm
      rcases key _ hm rfl with ⟨j, hj⟩ | ⟨j, hj⟩ <;> cases hj
    · intro hm
      rcases key _ hm rfl with ⟨j, hj⟩ | ⟨j, hj⟩ <;> cases hj
    · intro hm
      rcases key _ hm rfl with ⟨j, hj⟩ | ⟨j, hj⟩ <;> cases hj

/-- The instance of C3 for "already exists": `web-deployment` is there when
`web` is processed. -/
theorem create_error_no_event_no_requeue_witness :
    webQueuedAgain.wq.Get = GetResult.item (Item.ptr 1) webTaken
      ∧ demoEnv.create webQueuedAgain.api "default" (buildDeployment web)
          = Except.error (Err.alreadyExists "default" "web-deployment")
      ∧ eventCalls (passCalls demoEnv webQueuedAgain) = []
      ∧ (processNextItem demoEnv webQueuedAgain).1 = Outcome.returned false
      ∧ queueCalls (passCalls demoEnv webQueuedAgain)
          = [Call.wqGet (some (Item.ptr 1)), Call.wqForget (Item.ptr 1)]
      ∧ (processNextItem demoEnv webQueuedAgain).2.wq.queue = webQueuedAgain.wq.queue.tail
      ∧ Item.ptr 1 ∉ (processNextItem demoEnv webQueuedAgain).2.wq.dirty
      ∧ (∀ (env1 : Env) (w1 : World) (i : Item),
          Call.wqAddRateLimited i ∉ passCalls env1 w1 ∧ Call.wqAdd i ∉ passCalls env1 w1
            ∧ Call.wqDone i ∉ passCalls env1 w1 ∧ Call.wqShutDown ∉ passCalls env1 w1) :=
  ⟨by decide, rfl,
   create_error_no_event_no_requeue demoEnv webQueuedAgain (Item.ptr 1) webTaken "default" "web"
     web (Err.alreadyExists "default" "web-deployment") (by decide) rfl rfl rfl⟩

/-- C4: when decode and lister lookup succeed for a dequeued item, the pass
issues exactly one `Create` call. The call succeeds if and only if the pass
records an event, and if and only if `processNextItem` returns true; the event
is then the only one, it is on the parent the lister returned, with type
`Normal` and reason `CREATE`, and it comes right after the `Create` call. When
the call fails no event is recorded. -/
theorem one_create_and_event_iff_success (env : Env) (w : World) (item : Item)
    (q : WorkQueue) (ns name : String) (p : HADeployment)
    (hget : w.wq.Get = GetResult.item item q)
    (hk : decodeItem env.deref item = Except.ok (ns, name))
    (hl : env.lister ns name = Except.ok p) :
    (createCalls (passCalls env w)).length = 1
      ∧ ((∃ api, env.create w.api ns (buildDeployment p) = Except.ok api)
          ↔ eventCalls (passCalls env w)
              = [{ object := p, eventtype := "Normal", reason := "CREATE",
                   message := "Deployment was created" }])
      ∧ ((∃ api, env.create w.api ns (buildDeployment p) = Except.ok api)
          ↔ (processNextItem env w).1 = Outcome.returned true)
      ∧ ((∃ api, env.create w.api ns (buildDeployment p) = Except.ok api)
          → passCalls env w
              = [Call.wqGet (some item), Call.listerGet ns name,
                 Call.create ns (buildDeployment p),
                 Call.event { object := p, eventtype := "Normal", reason := "CREATE",
                              message := "Deployment was created" },
                 Call.wqForget item])
      ∧ ((∃ e, env.create w.api ns (buildDeployment p) = Except.error e)
          → eventCalls (passCalls env w) = []) := by
  cases hc : env.create w.api ns (buildDeployment p) with
  | error e =>
    have h := pass_create_error env w item q ns name p e hget hk hl hc
    simp [passCalls, newCalls, h, createCalls, eventCalls]
  | ok api =>
    have h := pass_success env w item q ns name p api hget hk hl hc
    simp [passCalls, newCalls, h, createCalls, eventCalls, createdEvent]

/-- The instances of C4: the scenario object (one `Create`, one event on `web`,
the pass returns true), and the same object when `web-deployment` exists
already (one `Create`, no event). -/
theorem one_create_and_event_iff_success_witness :
    webQueued.wq.Get = GetResult.item (Item.ptr 1) webTaken
      ∧ (createCalls (passCalls demoEnv webQueued)).length = 1
      ∧ eventCalls (passCalls demoEnv webQueued)
          = [{ object := web, eventtype := "Normal", reason := "CREATE",
               message := "Deployment was created" }]
      ∧ (processNextItem demoEnv webQueued).1 = Outcome.returned true
      ∧ passCalls demoEnv webQueued
          = [Call.wqGet (some (Item.ptr 1)), Call.listerGet "default" "web",
             Call.create "default" (buildDeployment web),
             Call.event { object := web, eventtype := "Normal", reason := "CREATE",
                          message := "Deployment was created" },
             Call.wqForget (Item.ptr 1)]
      ∧ webQueuedAgain.wq.Get = GetResult.item (Item.ptr 1) webTaken
      ∧ (createCalls (passCalls demoEnv webQueuedAgain)).length = 1
      ∧ eventCalls (passCalls demoEnv webQueuedAgain) = [] :=
  ⟨by decide,
   (one_create_and_event_iff_success demoEnv webQueued (Item.ptr 1) webTaken "default" "web" web
     (by decide) rfl rfl).1,
   (one_create_and_event_iff_success demoEnv webQueued (Item.ptr 1) webTaken "default" "web" web
     (by decide) rfl rfl).2.1.mp ⟨_, rfl⟩,
   (one_create_and_event_iff_success demoEnv webQueued (Item.ptr 1) webTaken "default" "web" web
     (by decide) rfl rfl).2.2.1.mp ⟨_, rfl⟩,
   (one_create_and_event_iff_success demoEnv webQueued (Item.ptr 1) webTaken "default" "web" web
     (by decide) rfl rfl).2.2.2.1 ⟨_, rfl⟩,
   by decide,
   (one_create_and_event_iff_success demoEnv webQueuedAgain (Item.ptr 1) webTaken "default"
     "web" web (by decide) rfl rfl).1,
   (one_create_and_event_iff_success demoEnv webQueuedAgain (Item.ptr 1) webTaken "default"
     "web" web (by decide) rfl rfl).2.2.2.2 ⟨_, rfl⟩⟩

/-- C5: for every item that `Get` hands out, the pass calls `Forget` exactly
once, on that item, as its last call, whichever way the body ends (decode
failure, split failure, lookup failure, `Create` failure, success); when `Get`
reports shutdown the pass makes no `Forget` call. -/
theorem forget_once_after_processing (env : Env) (w : World) :
    (∀ (item : Item) (q : WorkQueue), w.wq.Get = GetResult.item item q →
        forgotItems (passCalls env w) = [item]
          ∧ (passCalls env w).getLast? = some (Call.wqForget item)
          ∧ (passCalls env w).head? = some (Call.wqGet (some item)))
      ∧ (w.wq.Get = GetResult.shutDown →
          forgotItems (passCalls env w) = [] ∧ passCalls env w = [Call.wqGet none]
            ∧ (processNextItem env w).1 = Outcome.returned false) := by
  constructor
  · intro item q hget
    obtain ⟨body, hbody, hcalls, -, -⟩ := pass_cases env w item q hget
    have hb : forgotItems body = [] := by
      apply filterMap_eq_nil_of_forall
      intro c hc
      have := hbody c hc
      cases c <;> simp_all [Call.isQueueCall]
    have hp : passCalls env w = Call.wqGet (some item) :: (body ++ [Call.wqForget item]) := by
      simp [passCalls, newCalls, hcalls]
    refine ⟨?_, ?_, ?_⟩
    · rw [hp]
      unfold forgotItems at hb ⊢
      simp [List.filterMap_cons, List.filterMap_append, hb]
    · rw [hp, ← List.cons_append, List.getLast?_concat]
    · rw [hp]
      simp
  · intro hget
    simp [passCalls, newCalls, pass_shutDown env w hget, forgotItems]

/-- The instances of C5: a pass that succeeds, a pass whose lookup fails, and a
pass on a queue that was shut down. -/
theorem forget_once_after_processing_witness :
    (forgotItems (passCalls demoEnv webQueued) = [Item.ptr 1]
        ∧ (passCalls demoEnv webQueued).getLast? = some (Call.wqForget (Item.ptr 1))
        ∧ (passCalls demoEnv webQueued).head? = some (Call.wqGet (some (Item.ptr 1))))
      ∧ (forgotItems (passCalls demoEnv ghostQueued) = [Item.ptr 3]
        ∧ (passCalls demoEnv ghostQueued).getLast? = some (Call.wqForget (Item.ptr 3))
        ∧ (passCalls demoEnv ghostQueued).head? = some (Call.wqGet (some (Item.ptr 3))))
      ∧ (forgotItems (passCalls demoEnv shutWorld) = []
        ∧ passCalls demoEnv shutWorld = [Call.wqGet none]
        ∧ (processNextItem demoEnv shutWorld).1 = Outcome.returned false) :=
  ⟨(forget_once_after_processing demoEnv webQueued).1 (Item.ptr 1) webTaken (by decide),
   (forget_once_after_processing demoEnv ghostQueued).1 (Item.ptr 3) ghostTaken (by decide),
   (forget_once_after_processing demoEnv shutWorld).2 (by decide)⟩

/-! ## Lemmas on `Add`, on the worker loop and on `Run` -/

theorem add_queue_of_processing (q : WorkQueue) (item : Item) (h : item ∈ q.processing) :
    (q.Add item).queue = q.queue := by
  unfold WorkQueue.Add
  split
  · rfl
  · split
    · rfl
    · simp [h]

theorem add_shuttingDown (q : WorkQueue) (item : Item) :
    (q.Add item).shuttingDown = q.shuttingDown := by
  unfold WorkQueue.Add
  split
  · rfl
  · split
    · rfl
    · split <;> rfl

theorem add_add (q : WorkQueue) (item : Item) : (q.Add item).Add item = q.Add item := by
  by_cases hs : q.shuttingDown = true
  · simp [WorkQueue.Add, hs]
  · by_cases hd : item ∈ q.dirty
    · simp [WorkQueue.Add, hs, hd]
    · by_cases hp : item ∈ q.processing
      · simp [WorkQueue.Add, hs, hd, hp]
      · simp [WorkQueue.Add, hs, hd, hp]

theorem iterate_handleAdd_wq (obj : Item) (n : Nat) (w : World) :
    ((handleAdd obj)^[n + 1] w).wq = w.wq.Add obj := by
  induction n with
  | zero => simp [handleAdd, World.log]
  | succ k ih =>
    rw [Function.iterate_succ_apply', show (handleAdd obj ((handleAdd obj)^[k + 1] w)).wq
      = ((handleAdd obj)^[k + 1] w).wq.Add obj from by simp [handleAdd, World.log], ih, add_add]

theorem pass_createCalls_le (env : Env) (w : World) :
    (createCalls (passCalls env w)).length ≤ 1 := by
  cases hget : w.wq.Get with
  | blocked => simp [passCalls, newCalls, pass_blocked env w hget, createCalls]
  | shutDown => simp [passCalls, newCalls, pass_shutDown env w hget, createCalls]
  | item item q =>
    cases hk : decodeItem env.deref item with
    | error e => simp [passCalls, newCalls, pass_decode_error env w item q e hget hk, createCalls]
    | ok key =>
      obtain ⟨ns, name⟩ := key
      cases hl : env.lister ns name with
      | error e =>
        simp [passCalls, newCalls, pass_lister_error env w item q ns name e hget hk hl,
          createCalls]
      | ok p =>
        cases hc : env.create w.api ns (buildDeployment p) with
        | error e =>
          simp [passCalls, newCalls, pass_create_error env w item q ns name p e hget hk hl hc,
            createCalls]
        | ok api =>
          simp [passCalls, newCalls, pass_success env w item q ns name p api hget hk hl hc,
            createCalls]

theorem pass_outcome_true (env : Env) (w : World)
    (h : (processNextItem env w).1 = Outcome.returned true) :
    ∃ item q, w.wq.Get = GetResult.item item q := by
  cases hget : w.wq.Get with
  | blocked => simp [pass_blocked env w hget] at h
  | shutDown => simp [pass_shutDown env w hget] at h
  | item item q => exact ⟨item, q, rfl⟩

theorem pass_wq (env : Env) (w : World) :
    (processNextItem env w).2.wq.queue = w.wq.queue.tail
      ∧ (processNextItem env w).2.wq.shuttingDown = w.wq.shuttingDown := by
  cases hget : w.wq.Get with
  | blocked =>
    have := (get_blocked_iff w.wq).mp hget
    simp [pass_blocked env w hget, this.1]
  | shutDown =>
    have := (get_shutDown_iff w.wq).mp hget
    simp [pass_shutDown env w hget, this.1]
  | item item q =>
    obtain ⟨-, -, -, hwq, -⟩ := pass_cases env w item q hget
    obtain ⟨hq, hs, -, -, -⟩ := get_item_queue hget
    simp [hwq, WorkQueue.Forget, hq, hs]

theorem workerLoop_some (env : Env) (fuel : Nat) (w : World)
    (hf : w.wq.queue.length < fuel) :
    ∃ e w1, workerLoop env fuel w = some (e, w1)
      ∧ w1.wq.shuttingDown = w.wq.shuttingDown
      ∧ (e = WorkerEnd.blocked → w1.wq.Get = GetResult.blocked) := by
  induction fuel generalizing w with
  | zero => omega
  | succ n ih =>
    unfold workerLoop
    rcases hp : processNextItem env w with ⟨o, w1⟩
    cases o with
    | blocked =>
      refine ⟨WorkerEnd.blocked, w1, rfl, ?_, ?_⟩
      · have := (pass_wq env w).2
        rw [hp] at this
        exact this
      · intro _
        cases hget : w.wq.Get with
        | blocked =>
          rw [pass_blocked env w hget] at hp
          simp only [Prod.mk.injEq, true_and] at hp
          rw [← hp]
          exact hget
        | shutDown => simp [pass_shutDown env w hget] at hp
        | item item q =>
          obtain ⟨-, -, -, -, b, hb⟩ := pass_cases env w item q hget
          simp [hp] at hb
    | returned b =>
      cases b with
      | false =>
        refine ⟨WorkerEnd.exited, w1, rfl, ?_, by simp⟩
        have := (pass_wq env w).2
        rw [hp] at this
        exact this
      | true =>
        have hq := (pass_wq env w).1
        have hs := (pass_wq env w).2
        rw [hp] at hq hs
        obtain ⟨item, q, hget⟩ := pass_outcome_true env w (by rw [hp])
        have hne := (get_item_queue hget).1
        have hlt : w1.wq.queue.length < n := by
          simp only at hq
          rw [hq, hne]
          rw [hne] at hf
          simp at hf ⊢
          omega
        obtain ⟨e, w2, h2, hs2, hb2⟩ := ih w1 hlt
        exact ⟨e, w2, h2, by rw [hs2]; exact hs, hb2⟩

theorem worker_some (env : Env) (w : World) :
    ∃ e w1, worker env w = some (e, w1)
      ∧ w1.wq.shuttingDown = w.wq.shuttingDown
      ∧ (e = WorkerEnd.blocked → w1.wq.Get = GetResult.blocked) :=
  workerLoop_some env (w.wq.queue.length + 1) w (Nat.lt_succ_self _)

theorem worker_of_false (env : Env) (w : World)
    (h : (processNextItem env w).1 = Outcome.returned false) :
    worker env w = some (WorkerEnd.exited, (processNextItem env w).2) := by
  unfold worker workerLoop
  rcases hp : processNextItem env w with ⟨o, w1⟩
  rw [hp] at h
  simp only at h
  subst h
  rfl

theorem worker_single (env : Env) (w : World) (item : Item)
    (hq : w.wq.queue = [item]) (hs : w.wq.shuttingDown = false) :
    worker env w = some (WorkerEnd.exited, (processNextItem env w).2)
      ∨ worker env w = some (WorkerEnd.blocked, (processNextItem env w).2) := by
  have hget : ∃ q, w.wq.Get = GetResult.item item q := by
    unfold WorkQueue.Get
    rw [hq]
    exact ⟨_, rfl⟩
  obtain ⟨q, hget⟩ := hget
  obtain ⟨-, -, -, -, b, hb⟩ := pass_cases env w item q hget
  cases b with
  | false => exact Or.inl (worker_of_false env w hb)
  | true =>
    right
    have hq2 := (pass_wq env w).1
    have hs2 := (pass_wq env w).2
    rw [hq] at hq2
    rw [hs] at hs2
    have hblk : (processNextItem env w).2.wq.Get = GetResult.blocked :=
      (get_blocked_iff _).mpr ⟨by simpa using hq2, hs2⟩
    unfold worker workerLoop
    rcases hp : processNextItem env w with ⟨o, w1⟩
    rw [hp] at hb hblk
    simp only at hb hblk
    subst hb
    simp only [hq, List.length_singleton]
    unfold workerLoop
    rw [pass_blocked env w1 hblk]

theorem get_of_cons (q : WorkQueue) (i : Item) (r : List Item) (h : q.queue = i :: r) :
    ∃ q1, q.Get = GetResult.item i q1 := by
  unfold WorkQueue.Get
  rw [h]
  exact ⟨_, rfl⟩

theorem pass_gotItems (env : Env) (w : World) (item : Item) (q : WorkQueue)
    (hget : w.wq.Get = GetResult.item item q) :
    gotItems (passCalls env w) = [item] := by
  obtain ⟨body, hbody, hcalls, -, -⟩ := pass_cases env w item q hget
  have hb : gotItems body = [] := by
    apply filterMap_eq_nil_of_forall
    intro c hc
    have := hbody c hc
    cases c <;> simp_all [Call.isQueueCall]
  have hp : passCalls env w = Call.wqGet (some item) :: (body ++ [Call.wqForget item]) := by
    simp [passCalls, newCalls, hcalls]
  rw [hp]
  unfold gotItems at hb ⊢
  simp [List.filterMap_cons, List.filterMap_append, hb]

theorem one_create_length (env : Env) (w : World) (item : Item) (q : WorkQueue)
    (ns name : String) (p : HADeployment)
    (hget : w.wq.Get = GetResult.item item q)
    (hk : decodeItem env.deref item = Except.ok (ns, name))
    (hl : env.lister ns name = Except.ok p) :
    (createCalls (passCalls env w)).length = 1 := by
  cases hc : env.create w.api ns (buildDeployment p) with
  | error e =>
    simp [passCalls, newCalls, pass_create_error env w item q ns name p e hget hk hl hc,
      createCalls]
  | ok api =>
    simp [passCalls, newCalls, pass_success env w item q ns name p api hget hk hl hc,
      createCalls]

/-! ## The claims on the queue protocol -/

/-- C6, as the code has it: a pass that got an item calls `Get` and `Forget` on
the queue and never `Done`; the item stays in the processing set and is not
pending, and a later `Add` of the same item leaves the pending queue as it was,
so the item is not delivered again. -/
theorem pass_never_marks_done (env : Env) (w : World) (item : Item) (q : WorkQueue)
    (hget : w.wq.Get = GetResult.item item q) (hnodup : w.wq.queue.Nodup) :
    (∀ i, Call.wqDone i ∉ passCalls env w)
      ∧ queueCalls (passCalls env w) = [Call.wqGet (some item), Call.wqForget item]
      ∧ item ∈ (processNextItem env w).2.wq.processing
      ∧ item ∉ (processNextItem env w).2.wq.queue
      ∧ (handleAdd item (processNextItem env w).2).wq.queue
          = (processNextItem env w).2.wq.queue := by
  obtain ⟨body, hbody, hcalls, hwq, -⟩ := pass_cases env w item q hget
  obtain ⟨hq, -, -, hproc, -⟩ := get_item_queue hget
  have hp : passCalls env w = Call.wqGet (some item) :: (body ++ [Call.wqForget item]) := by
    simp [passCalls, newCalls, hcalls]
  have hb : body.filter Call.isQueueCall = [] := by
    rw [List.filter_eq_nil_iff]
    intro c hc
    simp [hbody c hc]
  have hproc2 : item ∈ (processNextItem env w).2.wq.processing := by
    rw [hwq]
    exact hproc
  refine ⟨?_, ?_, hproc2, ?_, ?_⟩
  · intro i hi
    rw [hp] at hi
    simp only [List.mem_cons, List.mem_append, List.mem_singleton, List.not_mem_nil,
      or_false] at hi
    rcases hi with hi | hi | hi
    · cases hi
    · have := hbody _ hi
      simp [Call.isQueueCall] at this
    · cases hi
  · simp [hp, queueCalls, List.filter_cons, Call.isQueueCall, hb]
  · rw [hwq]
    rw [hq] at hnodup
    simpa [WorkQueue.Forget] using (List.nodup_cons.mp hnodup).1
  · simp only [handleAdd, World.log]
    exact add_queue_of_processing _ item hproc2

/-- The instance of C6's amended statement for the scenario object. -/
theorem pass_never_marks_done_witness :
    webQueued.wq.Get = GetResult.item (Item.ptr 1) webTaken ∧ webQueued.wq.queue.Nodup
      ∧ (∀ i, Call.wqDone i ∉ passCalls demoEnv webQueued)
      ∧ queueCalls (passCalls demoEnv webQueued)
          = [Call.wqGet (some (Item.ptr 1)), Call.wqForget (Item.ptr 1)]
      ∧ Item.ptr 1 ∈ (processNextItem demoEnv webQueued).2.wq.processing
      ∧ Item.ptr 1 ∉ (processNextItem demoEnv webQueued).2.wq.queue
      ∧ (handleAdd (Item.ptr 1) (processNextItem demoEnv webQueued).2).wq.queue
          = (processNextItem demoEnv webQueued).2.wq.queue :=
  ⟨by decide, by decide,
   pass_never_marks_done demoEnv webQueued (Item.ptr 1) webTaken (by decide) (by decide)⟩

/-- C6 fails on the code: after `web` was processed with success, the calls made
hold no `Done` for it, it is still in the processing set, and adding the same
item again leaves the queue empty, so that the next `Get` blocks instead of
delivering it. -/
theorem done_is_called_counterexample :
    (processNextItem demoEnv webQueued).1 = Outcome.returned true
      ∧ Call.wqDone (Item.ptr 1) ∉ (processNextItem demoEnv webQueued).2.calls
      ∧ Item.ptr 1 ∈ (processNextItem demoEnv webQueued).2.wq.processing
      ∧ (handleAdd (Item.ptr 1) (processNextItem demoEnv webQueued).2).wq.queue = []
      ∧ (processNextItem demoEnv
            (handleAdd (Item.ptr 1) (processNextItem demoEnv webQueued).2)).1
          = Outcome.blocked := by
  decide

/-- C7, as the code has it: `handleAdd` makes exactly one queue call, `Add` of
the delivered object itself, which becomes the pending entry (the key is not
computed there); the pass that dequeues the object derives the key from it,
looks the key up in the lister once, and builds the child from the object the
lister returned: replica count and image of the `Create` argument are those of
the lister's object, whatever the queued object holds. -/
theorem handleAdd_enqueues_object (env : Env) (w : World) (obj : Item) :
    newCalls w (handleAdd obj w) = [Call.wqAdd obj]
      ∧ (w.wq.shuttingDown = false → obj ∉ w.wq.dirty → obj ∉ w.wq.processing →
          (handleAdd obj w).wq.queue = w.wq.queue ++ [obj])
      ∧ (∀ (w1 : World) (q : WorkQueue) (ns name : String) (p : HADeployment),
          w1.wq.Get = GetResult.item obj q →
          decodeItem env.deref obj = Except.ok (ns, name) →
          env.lister ns name = Except.ok p →
            gotItems (passCalls env w1) = [obj]
              ∧ listerCalls (passCalls env w1) = [(ns, name)]
              ∧ (createCalls (passCalls env w1)).map
                  (fun c => (c.2.Spec.Replicas,
                    c.2.Spec.Template.Spec.Containers.map Container.Image))
                  = [(some p.Spec.Replicas, [p.Spec.Image])]) := by
  refine ⟨?_, ?_, ?_⟩
  · simp [newCalls, handleAdd, World.log]
  · intro hs hd hp
    simp [handleAdd, World.log, WorkQueue.Add, hs, hd, hp]
  · intro w1 q ns name p hget hk hl
    refine ⟨pass_gotItems env w1 obj q hget, ?_⟩
    cases hc : env.create w1.api ns (buildDeployment p) with
    | error e =>
      have h := pass_create_error env w1 obj q ns name p e hget hk hl hc
      simp [passCalls, newCalls, h, createCalls, listerCalls, buildDeployment]
    | ok api =>
      have h := pass_success env w1 obj q ns name p api hget hk hl hc
      simp [passCalls, newCalls, h, createCalls, listerCalls, buildDeployment]

/-- The instance of C7's amended statement: the object at pointer 2 asks for 5
replicas of `nginx:1.22`, the cache holds `web` with 3 replicas of `nginx:1.21`
under its key, and the child is built from the cache's object. -/
theorem handleAdd_enqueues_object_witness :
    (NewController []).wq.shuttingDown = false
      ∧ staleQueued.wq.queue = [Item.ptr 2]
      ∧ staleQueued.wq.Get = GetResult.item (Item.ptr 2) staleTaken
      ∧ (demoEnv.deref 2).Spec = { Replicas := 5, Image := "nginx:1.22" }
      ∧ gotItems (passCalls demoEnv staleQueued) = [Item.ptr 2]
      ∧ listerCalls (passCalls demoEnv staleQueued) = [("default", "web")]
      ∧ (createCalls (passCalls demoEnv staleQueued)).map
          (fun c => (c.2.Spec.Replicas, c.2.Spec.Template.Spec.Containers.map Container.Image))
          = [(some 3, ["nginx:1.21"])] :=
  ⟨by decide,
   (handleAdd_enqueues_object demoEnv (NewController []) (Item.ptr 2)).2.1
     (by decide) (by decide) (by decide),
   by decide, by decide,
   (handleAdd_enqueues_object demoEnv (NewController []) (Item.ptr 2)).2.2
     staleQueued staleTaken "default" "web" web (by decide) rfl rfl⟩

/-- C7 fails on the code: for the object `web` at pointer 1, whose key is
`default/web`, the argument of the one `Add` and the pending entry are the
object itself, not the key string; and a queue that held the key string would
have its item abandoned at the key decoding, before any lister lookup. -/
theorem queue_holds_key_counterexample :
    MetaNamespaceKeyFunc demoEnv.deref (Item.ptr 1) = Except.ok "default/web"
      ∧ newCalls (NewController []) (handleAdd (Item.ptr 1) (NewController []))
          = [Call.wqAdd (Item.ptr 1)]
      ∧ (handleAdd (Item.ptr 1) (NewController [])).wq.queue = [Item.ptr 1]
      ∧ (handleAdd (Item.ptr 1) (NewController [])).wq.queue ≠ [Item.str "default/web"]
      ∧ passCalls demoEnv (handleAdd (Item.str "default/web") (NewController []))
          = [Call.wqGet (some (Item.str "default/web")),
             Call.wqForget (Item.str "default/web")] :=
  ⟨rfl, by decide, by decide, by decide, by decide⟩

/-- C8, as the code has it: the queue collapses equal items, and `handleAdd`
queues the delivered object. For every N >= 1, N add events that deliver the
same object leave the queue as one such event does, with at most one pending
entry for the object when it was not pending before; on a fresh controller they
leave exactly one entry, and the run of `worker` that follows ends, hands out
that one item once and issues at most one `Create` call (exactly one when the
key decodes and the lister finds the object). An add event that delivers
another object, whatever its key, makes a second pending entry. -/
theorem repeated_add_of_one_object (env : Env) (api : ApiState) (obj : Item) (N : Nat)
    (hN : 1 ≤ N) :
    (∀ w : World, ((handleAdd obj)^[N] w).wq = (handleAdd obj w).wq)
      ∧ (∀ w : World, obj ∉ w.wq.queue → ((handleAdd obj)^[N] w).wq.queue.count obj ≤ 1)
      ∧ ((handleAdd obj)^[N] (NewController api)).wq.queue = [obj]
      ∧ (worker env ((handleAdd obj)^[N] (NewController api))).map
          (fun r => gotItems (newCalls ((handleAdd obj)^[N] (NewController api)) r.2))
          = some [obj]
      ∧ (worker env ((handleAdd obj)^[N] (NewController api))).map
          (fun r => decide
            ((createCalls (newCalls ((handleAdd obj)^[N] (NewController api)) r.2)).length ≤ 1))
          = some true
      ∧ (∀ (ns name : String) (p : HADeployment),
          decodeItem env.deref obj = Except.ok (ns, name) →
          env.lister ns name = Except.ok p →
          (worker env ((handleAdd obj)^[N] (NewController api))).map
            (fun r =>
              (createCalls (newCalls ((handleAdd obj)^[N] (NewController api)) r.2)).length)
            = some 1)
      ∧ (∀ other : Item, other ≠ obj →
          (handleAdd other ((handleAdd obj)^[N] (NewController api))).wq.queue
            = [obj, other]) := by
  obtain ⟨n, rfl⟩ : ∃ n, N = n + 1 := ⟨N - 1, by omega⟩
  have hone : ∀ w : World, (handleAdd obj w).wq = w.wq.Add obj := by
    intro w
    simp [handleAdd, World.log]
  have hfresh : ((handleAdd obj)^[n + 1] (NewController api)).wq.queue = [obj] := by
    rw [iterate_handleAdd_wq]
    simp [NewController, WorkQueue.new, WorkQueue.Add]
  have hshut : ((handleAdd obj)^[n + 1] (NewController api)).wq.shuttingDown = false := by
    rw [iterate_handleAdd_wq]
    simp [NewController, WorkQueue.new, WorkQueue.Add]
  refine ⟨?_, ?_, hfresh, ?_⟩
  · intro w
    rw [iterate_handleAdd_wq, hone]
  · intro w hw
    rw [iterate_handleAdd_wq]
    have h0 : w.wq.queue.count obj = 0 := List.count_eq_zero_of_not_mem hw
    unfold WorkQueue.Add
    split
    · omega
    · split
      · omega
      · split
        · simp only
          omega
        · simp [List.count_append, h0]
  · obtain ⟨q, hget⟩ := get_of_cons _ obj [] hfresh
    have hgot := pass_gotItems env _ obj q hget
    have hle := pass_createCalls_le env ((handleAdd obj)^[n + 1] (NewController api))
    have hex : ∀ (ns name : String) (p : HADeployment),
        decodeItem env.deref obj = Except.ok (ns, name) →
        env.lister ns name = Except.ok p →
        (createCalls (passCalls env ((handleAdd obj)^[n + 1] (NewController api)))).length
          = 1 := by
      intro ns name p hk hl
      exact (one_create_length env _ obj q ns name p hget hk hl)
    unfold passCalls at hgot hle hex
    have hother : ∀ other : Item, other ≠ obj →
        (handleAdd other ((handleAdd obj)^[n + 1] (NewController api))).wq.queue
          = [obj, other] := by
      intro other hne
      have h1 : (handleAdd other ((handleAdd obj)^[n + 1] (NewController api))).wq
          = ((handleAdd obj)^[n + 1] (NewController api)).wq.Add other := by
        simp [handleAdd, World.log]
      rw [h1, iterate_handleAdd_wq]
      simp [NewController, WorkQueue.new, WorkQueue.Add, hne]
    rcases worker_single env _ obj hfresh hshut with h | h
    · rw [h]
      refine ⟨by simpa using hgot, by simpa using hle, ?_, hother⟩
      intro ns name p hk hl
      simpa using hex ns name p hk hl
    · rw [h]
      refine ⟨by simpa using hgot, by simpa using hle, ?_, hother⟩
      intro ns name p hk hl
      simpa using hex ns name p hk hl

/-- The instance of C8's amended statement for two add events that deliver the
object at pointer 1. -/
theorem repeated_add_of_one_object_witness :
    (1 ≤ 2)
      ∧ ((handleAdd (Item.ptr 1))^[2] (NewController [])).wq
          = (handleAdd (Item.ptr 1) (NewController [])).wq
      ∧ ((handleAdd (Item.ptr 1))^[2] (NewController [])).wq.queue.count (Item.ptr 1) ≤ 1
      ∧ ((handleAdd (Item.ptr 1))^[2] (NewController [])).wq.queue = [Item.ptr 1]
      ∧ (worker demoEnv ((handleAdd (Item.ptr 1))^[2] (NewController []))).map
          (fun r => gotItems (newCalls ((handleAdd (Item.ptr 1))^[2] (NewController [])) r.2))
          = some [Item.ptr 1]
      ∧ (worker demoEnv ((handleAdd (Item.ptr 1))^[2] (NewController []))).map
          (fun r => decide
            ((createCalls
              (newCalls ((handleAdd (Item.ptr 1))^[2] (NewController [])) r.2)).length ≤ 1))
          = some true
      ∧ (worker demoEnv ((handleAdd (Item.ptr 1))^[2] (NewController []))).map
          (fun r =>
            (createCalls
              (newCalls ((handleAdd (Item.ptr 1))^[2] (NewController [])) r.2)).length)
          = some 1
      ∧ (handleAdd (Item.ptr 2) ((handleAdd (Item.ptr 1))^[2] (NewController []))).wq.queue
          = [Item.ptr 1, Item.ptr 2] :=
  ⟨by decide,
   (repeated_add_of_one_object demoEnv [] (Item.ptr 1) 2 (by decide)).1 (NewController []),
   (repeated_add_of_one_object demoEnv [] (Item.ptr 1) 2 (by decide)).2.1 (NewController [])
     (by decide),
   (repeated_add_of_one_object demoEnv [] (Item.ptr 1) 2 (by decide)).2.2.1,
   (repeated_add_of_one_object demoEnv [] (Item.ptr 1) 2 (by decide)).2.2.2.1,
   (repeated_add_of_one_object demoEnv [] (Item.ptr 1) 2 (by decide)).2.2.2.2.1,
   (repeated_add_of_one_object demoEnv [] (Item.ptr 1) 2 (by decide)).2.2.2.2.2.1
     "default" "web" web rfl rfl,
   (repeated_add_of_one_object demoEnv [] (Item.ptr 1) 2 (by decide)).2.2.2.2.2.2
     (Item.ptr 2) (by decide)⟩

/-- C8 fails on the code: two add events for the key `default/web` that deliver
two objects (pointers 1 and 2, both with that key) leave two pending entries,
and the run of `worker` that follows hands out both and issues two `Create`
calls. -/
theorem same_key_twice_counterexample :
    MetaNamespaceKeyFunc demoEnv.deref (Item.ptr 1) = Except.ok "default/web"
      ∧ MetaNamespaceKeyFunc demoEnv.deref (Item.ptr 2) = Except.ok "default/web"
      ∧ webQueuedTwice.wq.queue = [Item.ptr 1, Item.ptr 2]
      ∧ (worker demoEnv webQueuedTwice).map (fun r => gotItems (newCalls webQueuedTwice r.2))
          = some [Item.ptr 1, Item.ptr 2]
      ∧ (worker demoEnv webQueuedTwice).map
          (fun r => (createCalls (newCalls webQueuedTwice r.2)).length) = some 2 :=
  ⟨rfl, rfl, by decide, by decide, by decide⟩

/-! ## Lemmas on `Run`, `wait.Until` and the cache sync wait -/

theorem handleAdd_shuttingDown (obj : Item) (w : World) :
    (handleAdd obj w).wq.shuttingDown = w.wq.shuttingDown := by
  simp [handleAdd, World.log, add_shuttingDown]

theorem runWorker_inv (env : Env) (w : World) :
    (runWorker env w).w.wq.shuttingDown = w.wq.shuttingDown
      ∧ ((runWorker env w).workerBlocked = true
          → (runWorker env w).w.wq.Get = GetResult.blocked) := by
  obtain ⟨e, w1, hw, hs, hb⟩ := worker_some env w
  unfold runWorker
  rw [hw]
  cases e with
  | exited => simp [hs]
  | blocked => simp [hs, hb]

theorem stepEv_inv (env : Env) (s : Sys) (ev : Ev)
    (hb : s.workerBlocked = true → s.w.wq.Get = GetResult.blocked) :
    (stepEv env s ev).w.wq.shuttingDown = s.w.wq.shuttingDown
      ∧ ((stepEv env s ev).workerBlocked = true
          → (stepEv env s ev).w.wq.Get = GetResult.blocked) := by
  cases ev with
  | add obj =>
    by_cases hbl : s.workerBlocked = true
    · have e : stepEv env s (Ev.add obj) = runWorker env (handleAdd obj s.w) := by
        simp [stepEv, hbl]
      rw [e]
      refine ⟨?_, (runWorker_inv env _).2⟩
      rw [(runWorker_inv env _).1, handleAdd_shuttingDown]
    · have e : stepEv env s (Ev.add obj) = { s with w := handleAdd obj s.w } := by
        simp [stepEv, hbl]
      rw [e]
      refine ⟨handleAdd_shuttingDown obj s.w, ?_⟩
      intro h
      exact absurd h hbl
  | tick =>
    by_cases hbl : s.workerBlocked = true
    · have e : stepEv env s Ev.tick = s := by
        simp [stepEv, hbl]
      rw [e]
      exact ⟨rfl, fun _ => hb hbl⟩
    · have e : stepEv env s Ev.tick = runWorker env s.w := by
        simp [stepEv, hbl]
      rw [e]
      exact runWorker_inv env s.w

theorem foldl_stepEv_inv (env : Env) (sched : List Ev) (s : Sys)
    (hb : s.workerBlocked = true → s.w.wq.Get = GetResult.blocked) :
    (sched.foldl (stepEv env) s).w.wq.shuttingDown = s.w.wq.shuttingDown
      ∧ ((sched.foldl (stepEv env) s).workerBlocked = true
          → (sched.foldl (stepEv env) s).w.wq.Get = GetResult.blocked) := by
  induction sched generalizing s with
  | nil => exact ⟨rfl, hb⟩
  | cons ev rest ih =>
    simp only [List.foldl_cons]
    obtain ⟨h1, h2⟩ := stepEv_inv env s ev hb
    obtain ⟨h3, h4⟩ := ih (stepEv env s ev) h2
    exact ⟨by rw [h3, h1], h4⟩

theorem waitForCacheSync_shuttingDown (synced : Nat → Bool) (sched : List Ev) (t : Nat)
    (w : World) :
    (WaitForCacheSync synced t sched w).2.2.wq.shuttingDown = w.wq.shuttingDown := by
  induction sched generalizing t w with
  | nil => rfl
  | cons ev rest ih =>
    unfold WaitForCacheSync
    by_cases hs : synced t = true
    · rw [if_pos hs]
    · rw [if_neg hs, ih]
      cases ev with
      | add obj => exact handleAdd_shuttingDown obj w
      | tick => rfl

theorem waitForCacheSync_cold (synced : Nat → Bool) (sched : List Ev) (t : Nat) (w : World)
    (hcold : ∀ i, i < sched.length → synced (t + i) = false) :
    (WaitForCacheSync synced t sched w).2 = ([], sched.foldl duringSync w) := by
  induction sched generalizing t w with
  | nil => rfl
  | cons ev rest ih =>
    unfold WaitForCacheSync
    have h0 : synced t = false := by simpa using hcold 0 (by simp)
    rw [if_neg (by simp [h0]), ih]
    · rfl
    · intro i hi
      have := hcold (i + 1) (by simpa using hi)
      rw [← this]
      congr 1
      omega

theorem until_inv (env : Env) (sched : List Ev) (w : World) :
    (Until env sched w).w.wq.shuttingDown = w.wq.shuttingDown
      ∧ ((Until env sched w).workerBlocked = true
          → (Until env sched w).w.wq.Get = GetResult.blocked) := by
  cases sched with
  | nil =>
    refine ⟨rfl, ?_⟩
    intro h
    simp [Until] at h
  | cons ev rest =>
    obtain ⟨h1, h2⟩ :=
      foldl_stepEv_inv env (ev :: rest) (runWorker env w) (runWorker_inv env w).2
    exact ⟨by rw [show Until env (ev :: rest) w
        = (ev :: rest).foldl (stepEv env) (runWorker env w) from rfl, h1,
        (runWorker_inv env w).1], h2⟩

theorem pass_calls_extend (env : Env) (w : World) :
    (processNextItem env w).2.calls = w.calls ++ passCalls env w := by
  have key : ∀ cs, (processNextItem env w).2.calls = w.calls ++ cs →
      (processNextItem env w).2.calls = w.calls ++ passCalls env w := by
    intro cs h
    rw [show passCalls env w = cs from newCalls_append w _ cs h]
    exact h
  cases hget : w.wq.Get with
  | blocked => exact key [] (by simp [pass_blocked env w hget])
  | shutDown => exact key [Call.wqGet none] (by simp [pass_shutDown env w hget])
  | item item q =>
    obtain ⟨body, -, hcalls, -, -⟩ := pass_cases env w item q hget
    exact key _ hcalls

theorem workerLoop_calls (env : Env) (fuel : Nat) (w w2 : World) (e : WorkerEnd)
    (h : workerLoop env fuel w = some (e, w2)) :
    ∃ cs, w2.calls = w.calls ++ cs := by
  induction fuel generalizing w with
  | zero => simp [workerLoop] at h
  | succ n ih =>
    unfold workerLoop at h
    have hext := pass_calls_extend env w
    rcases hp : processNextItem env w with ⟨o, w1⟩
    rw [hp] at h hext
    simp only at hext
    cases o with
    | blocked =>
      simp only [Option.some.injEq, Prod.mk.injEq] at h
      exact ⟨_, by rw [← h.2]; exact hext⟩
    | returned b =>
      cases b with
      | false =>
        simp only [Option.some.injEq, Prod.mk.injEq] at h
        exact ⟨_, by rw [← h.2]; exact hext⟩
      | true =>
        simp only at h
        obtain ⟨cs, hcs⟩ := ih w1 h
        exact ⟨passCalls env w ++ cs, by rw [hcs, hext, List.append_assoc]⟩

theorem worker_first_pass (env : Env) (w w2 : World) (e : WorkerEnd)
    (h : worker env w = some (e, w2)) :
    ∃ cs, w2.calls = w.calls ++ (passCalls env w ++ cs) := by
  unfold worker workerLoop at h
  have hext := pass_calls_extend env w
  rcases hp : processNextItem env w with ⟨o, w1⟩
  rw [hp] at h hext
  simp only at hext
  cases o with
  | blocked =>
    simp only [Option.some.injEq, Prod.mk.injEq] at h
    exact ⟨[], by rw [← h.2, hext]; simp⟩
  | returned b =>
    cases b with
    | false =>
      simp only [Option.some.injEq, Prod.mk.injEq] at h
      exact ⟨[], by rw [← h.2, hext]; simp⟩
    | true =>
      simp only at h
      obtain ⟨cs, hcs⟩ := workerLoop_calls env _ w1 w2 e h
      exact ⟨cs, by rw [hcs, hext, List.append_assoc]⟩

theorem pass_createCalls_eq (env : Env) (w : World) (item : Item) (q : WorkQueue)
    (ns name : String) (p : HADeployment)
    (hget : w.wq.Get = GetResult.item item q)
    (hk : decodeItem env.deref item = Except.ok (ns, name))
    (hl : env.lister ns name = Except.ok p) :
    createCalls (passCalls env w) = [(ns, buildDeployment p)] := by
  cases hc : env.create w.api ns (buildDeployment p) with
  | error e =>
    simp [passCalls, newCalls, pass_create_error env w item q ns name p e hget hk hl hc,
      createCalls]
  | ok api =>
    simp [passCalls, newCalls, pass_success env w item q ns name p api hget hk hl hc,
      createCalls]

theorem worker_exits_of_shuttingDown (env : Env) (w : World)
    (hs : w.wq.shuttingDown = true) :
    (worker env w).map Prod.fst = some WorkerEnd.exited := by
  obtain ⟨e, w1, hw, hs1, hb⟩ := worker_some env w
  rw [hw]
  cases e with
  | exited => rfl
  | blocked =>
    have h1 := ((get_blocked_iff w1.wq).mp (hb rfl)).2
    rw [hs1, hs] at h1
    cases h1

/-! ## The claims on the worker loop and on shutdown -/

/-- C10, as the code has it: when the key decoding or the lister lookup of a
dequeued item fails, `processNextItem` returns false and that ends the run of
`worker`: the run made one `Get` and no `Create`. The queue is not shut down
and keeps the items behind the failed one. When the period of `wait.Until`
elapses with the channel still open, `worker` is called again, and it is that
next run which hands out the item queued behind and, when that item's key
decodes and the lister finds it, issues the `Create` for it. -/
theorem failed_item_ends_worker_run (env : Env) (w : World) (item : Item) (q : WorkQueue)
    (hget : w.wq.Get = GetResult.item item q)
    (hfail : (∃ e, decodeItem env.deref item = Except.error e)
      ∨ (∃ ns name e, decodeItem env.deref item = Except.ok (ns, name)
          ∧ env.lister ns name = Except.error e)) :
    (processNextItem env w).1 = Outcome.returned false
      ∧ worker env w = some (WorkerEnd.exited, (processNextItem env w).2)
      ∧ gotItems (passCalls env w) = [item]
      ∧ createCalls (passCalls env w) = []
      ∧ (processNextItem env w).2.wq.queue = w.wq.queue.tail
      ∧ (processNextItem env w).2.wq.shuttingDown = w.wq.shuttingDown
      ∧ (∀ (next : Item) (rest : List Item), w.wq.queue = item :: next :: rest →
          gotItems (passCalls env (processNextItem env w).2) = [next])
      ∧ runWorker env w = { w := (processNextItem env w).2, workerBlocked := false }
      ∧ Until env [Ev.tick] w = runWorker env (processNextItem env w).2
      ∧ (∀ (next : Item) (rest : List Item) (ns name : String) (p : HADeployment),
          w.wq.queue = item :: next :: rest →
          decodeItem env.deref next = Except.ok (ns, name) →
          env.lister ns name = Except.ok p →
            (gotItems (newCalls w (Until env [Ev.tick] w).w)).take 2 = [item, next]
              ∧ (createCalls (newCalls w (Until env [Ev.tick] w).w)).head?
                  = some (ns, buildDeployment p)) := by
  have hfalse : (processNextItem env w).1 = Outcome.returned false := by
    rcases hfail with ⟨e, hk⟩ | ⟨ns, name, e, hk, hl⟩
    · simp [pass_decode_error env w item q e hget hk]
    · simp [pass_lister_error env w item q ns name e hget hk hl]
  have hcreate : createCalls (passCalls env w) = [] := by
    rcases hfail with ⟨e, hk⟩ | ⟨ns, name, e, hk, hl⟩
    · simp [passCalls, newCalls, pass_decode_error env w item q e hget hk, createCalls]
    · simp [passCalls, newCalls, pass_lister_error env w item q ns name e hget hk hl,
        createCalls]
  have hrun : runWorker env w = { w := (processNextItem env w).2, workerBlocked := false } := by
    simp [runWorker, worker_of_false env w hfalse]
  have huntil : Until env [Ev.tick] w = runWorker env (processNextItem env w).2 := by
    simp [Until, hrun, stepEv]
  refine ⟨hfalse, worker_of_false env w hfalse, pass_gotItems env w item q hget, hcreate,
    (pass_wq env w).1, (pass_wq env w).2, ?_, hrun, huntil, ?_⟩
  · intro next rest hq
    obtain ⟨q1, hq1⟩ := get_of_cons (processNextItem env w).2.wq next rest
      (by rw [(pass_wq env w).1, hq]; rfl)
    exact pass_gotItems env _ next q1 hq1
  · intro next rest ns name p hq hk hl
    obtain ⟨q1, hq1⟩ := get_of_cons (processNextItem env w).2.wq next rest
      (by rw [(pass_wq env w).1, hq]; rfl)
    have hgot1 := pass_gotItems env _ next q1 hq1
    have hcr1 := pass_createCalls_eq env _ next q1 ns name p hq1 hk hl
    have hgot0 := pass_gotItems env w item q hget
    obtain ⟨e, w2, hw2, -, -⟩ := worker_some env (processNextItem env w).2
    obtain ⟨cs, hcs⟩ := worker_first_pass env _ w2 e hw2
    have hw : (runWorker env (processNextItem env w).2).w = w2 := by
      cases e <;> simp [runWorker, hw2]
    have hnew : newCalls w (Until env [Ev.tick] w).w
        = passCalls env w ++ (passCalls env (processNextItem env w).2 ++ cs) := by
      apply newCalls_append
      rw [huntil, hw, hcs, pass_calls_extend env w, List.append_assoc]
    rw [hnew]
    unfold gotItems createCalls at *
    simp only [List.filterMap_append, hgot0, hgot1, hcreate, hcr1]
    simp

/-- The instance of C10's amended statement: `ghost`, which the cache no longer
holds, is queued ahead of `web`. -/
theorem failed_item_ends_worker_run_witness :
    ghostThenWeb.wq.Get = GetResult.item (Item.ptr 3) ghostThenWebTaken
      ∧ ghostThenWeb.wq.queue = [Item.ptr 3, Item.ptr 1]
      ∧ (processNextItem demoEnv ghostThenWeb).1 = Outcome.returned false
      ∧ worker demoEnv ghostThenWeb
          = some (WorkerEnd.exited, (processNextItem demoEnv ghostThenWeb).2)
      ∧ gotItems (passCalls demoEnv ghostThenWeb) = [Item.ptr 3]
      ∧ createCalls (passCalls demoEnv ghostThenWeb) = []
      ∧ (processNextItem demoEnv ghostThenWeb).2.wq.queue = ghostThenWeb.wq.queue.tail
      ∧ (processNextItem demoEnv ghostThenWeb).2.wq.shuttingDown
          = ghostThenWeb.wq.shuttingDown
      ∧ gotItems (passCalls demoEnv (processNextItem demoEnv ghostThenWeb).2) = [Item.ptr 1]
      ∧ runWorker demoEnv ghostThenWeb
          = { w := (processNextItem demoEnv ghostThenWeb).2, workerBlocked := false }
      ∧ Until demoEnv [Ev.tick] ghostThenWeb
          = runWorker demoEnv (processNextItem demoEnv ghostThenWeb).2
      ∧ (gotItems (newCalls ghostThenWeb (Until demoEnv [Ev.tick] ghostThenWeb).w)).take 2
          = [Item.ptr 3, Item.ptr 1]
      ∧ (createCalls (newCalls ghostThenWeb (Until demoEnv [Ev.tick] ghostThenWeb).w)).head?
          = some ("default", buildDeployment web) :=
  ⟨by decide, by decide,
   (failed_item_ends_worker_run demoEnv ghostThenWeb (Item.ptr 3) ghostThenWebTaken (by decide)
     (Or.inr ⟨"default", "ghost", Err.notFound "default" "ghost", rfl, rfl⟩)).1,
   (failed_item_ends_worker_run demoEnv ghostThenWeb (Item.ptr 3) ghostThenWebTaken (by decide)
     (Or.inr ⟨"default", "ghost", Err.notFound "default" "ghost", rfl, rfl⟩)).2.1,
   (failed_item_ends_worker_run demoEnv ghostThenWeb (Item.ptr 3) ghostThenWebTaken (by decide)
     (Or.inr ⟨"default", "ghost", Err.notFound "default" "ghost", rfl, rfl⟩)).2.2.1,
   (failed_item_ends_worker_run demoEnv ghostThenWeb (Item.ptr 3) ghostThenWebTaken (by decide)
     (Or.inr ⟨"default", "ghost", Err.notFound "default" "ghost", rfl, rfl⟩)).2.2.2.1,
   (failed_item_ends_worker_run demoEnv ghostThenWeb (Item.ptr 3) ghostThenWebTaken (by decide)
     (Or.inr ⟨"default", "ghost", Err.notFound "default" "ghost", rfl, rfl⟩)).2.2.2.2.1,
   (failed_item_ends_worker_run demoEnv ghostThenWeb (Item.ptr 3) ghostThenWebTaken (by decide)
     (Or.inr ⟨"default", "ghost", Err.notFound "default" "ghost", rfl, rfl⟩)).2.2.2.2.2.1,
   (failed_item_ends_worker_run demoEnv ghostThenWeb (Item.ptr 3) ghostThenWebTaken (by decide)
     (Or.inr ⟨"default", "ghost", Err.notFound "default" "ghost", rfl, rfl⟩)).2.2.2.2.2.2.1
     (Item.ptr 1) [] (by decide),
   (failed_item_ends_worker_run demoEnv ghostThenWeb (Item.ptr 3) ghostThenWebTaken (by decide)
     (Or.inr ⟨"default", "ghost", Err.notFound "default" "ghost", rfl, rfl⟩)).2.2.2.2.2.2.2.1,
   (failed_item_ends_worker_run demoEnv ghostThenWeb (Item.ptr 3) ghostThenWebTaken (by decide)
     (Or.inr ⟨"default", "ghost", Err.notFound "default" "ghost", rfl, rfl⟩)).2.2.2.2.2.2.2.2.1,
   ((failed_item_ends_worker_run demoEnv ghostThenWeb (Item.ptr 3) ghostThenWebTaken
     (by decide)
     (Or.inr ⟨"default", "ghost", Err.notFound "default" "ghost", rfl, rfl⟩)).2.2.2.2.2.2.2.2.2
     (Item.ptr 1) [] "default" "web" web (by decide) rfl rfl).1,
   ((failed_item_ends_worker_run demoEnv ghostThenWeb (Item.ptr 3) ghostThenWebTaken
     (by decide)
     (Or.inr ⟨"default", "ghost", Err.notFound "default" "ghost", rfl, rfl⟩)).2.2.2.2.2.2.2.2.2
     (Item.ptr 1) [] "default" "web" web (by decide) rfl rfl).2⟩

/-- C10 fails on the code: with `ghost` (lookup fails) queued ahead of the valid
`web`, the run of `worker` exits after the one pass on `ghost`; it makes no
second `Get` and no `Create`, and `web` is still pending when it returns. -/
theorem loop_continues_counterexample :
    ghostThenWeb.wq.queue = [Item.ptr 3, Item.ptr 1]
      ∧ demoEnv.lister "default" "web" = Except.ok web
      ∧ (worker demoEnv ghostThenWeb).map
          (fun r => (r.1, gotItems (newCalls ghostThenWeb r.2),
            createCalls (newCalls ghostThenWeb r.2), r.2.wq.queue))
          = some (WorkerEnd.exited, [Item.ptr 3], [], [Item.ptr 1]) :=
  ⟨by decide, rfl, by decide⟩

/-- C9, as the code has it: `Run` returns nil when the channel is closed, but
nothing in the controller shuts the queue down: whatever add events and worker
runs happened before, the queue's shutdown flag is what it was when `Run` was
called, and a worker suspended in `Get` when `Run` returns stays suspended
(`processNextItem` does not return there). When the channel is closed before
the cache has synced (every poll made before the closing answers false; this
covers a channel closed already at the call), no worker is run: only the
`handleAdd` calls of the add events have happened. `Get` reports shutdown
exactly on a queue that something else has shut down and that is empty;
`processNextItem` then returns false after that one call, without a `Forget`,
and `worker` exits. On any queue that has been shut down a run of `worker` ends
by exiting, never suspended in `Get`. -/
theorem run_leaves_queue_running (env : Env) (sched : List Ev) (w : World) :
    (Run env sched w).1 = none
      ∧ (Run env sched w).2.w.wq.shuttingDown = w.wq.shuttingDown
      ∧ ((Run env sched w).2.workerBlocked = true →
          processNextItem env (Run env sched w).2.w = (Outcome.blocked, (Run env sched w).2.w))
      ∧ Run env [] w = (none, { w := w, workerBlocked := false })
      ∧ ((∀ t, t < sched.length → env.klusterSynced t = false) →
          Run env sched w = (none, { w := sched.foldl duringSync w, workerBlocked := false }))
      ∧ (∀ w1 : World,
          w1.wq.Get = GetResult.shutDown ↔ (w1.wq.shuttingDown = true ∧ w1.wq.queue = []))
      ∧ (∀ w1 : World, w1.wq.shuttingDown = true → w1.wq.queue = [] →
          processNextItem env w1 = (Outcome.returned false, w1.log (Call.wqGet none))
            ∧ worker env w1 = some (WorkerEnd.exited, w1.log (Call.wqGet none)))
      ∧ (∀ w1 : World, w1.wq.shuttingDown = true →
          (worker env w1).map Prod.fst = some WorkerEnd.exited) := by
  have hu := until_inv env (WaitForCacheSync env.klusterSynced 0 sched w).2.1
    (WaitForCacheSync env.klusterSynced 0 sched w).2.2
  refine ⟨rfl, ?_, ?_, rfl, ?_, ?_, ?_, ?_⟩
  · show (Until env _ _).w.wq.shuttingDown = _
    rw [hu.1, waitForCacheSync_shuttingDown]
  · intro hb
    exact pass_blocked env _ (hu.2 hb)
  · intro hcold
    have h := waitForCacheSync_cold env.klusterSynced sched 0 w
      (fun i hi => by simpa using hcold i hi)
    unfold Run
    simp only [h]
    rfl
  · intro w1
    rw [get_shutDown_iff]
    exact ⟨fun h => ⟨h.2, h.1⟩, fun h => ⟨h.2, h.1⟩⟩
  · intro w1 hs hq
    have hget : w1.wq.Get = GetResult.shutDown := (get_shutDown_iff w1.wq).mpr ⟨hq, hs⟩
    have hp : processNextItem env w1 = (Outcome.returned false, w1.log (Call.wqGet none)) := by
      rw [pass_shutDown env w1 hget]
      rfl
    refine ⟨hp, ?_⟩
    have := worker_of_false env w1 (by rw [hp])
    rw [this, hp]
  · intro w1 hs
    exact worker_exits_of_shuttingDown env w1 hs

/-- The instances of C9's amended statement: a fresh controller whose channel is
closed after one add event and one period; a queue that was shut down, empty
and holding an item; and a cache that does not sync before the channel is
closed, so that no worker is run. -/
theorem run_leaves_queue_running_witness :
    (Run demoEnv [Ev.add (Item.ptr 1), Ev.tick] (NewController [])).2.workerBlocked = true
      ∧ processNextItem demoEnv (Run demoEnv [Ev.add (Item.ptr 1), Ev.tick] (NewController [])).2.w
          = (Outcome.blocked, (Run demoEnv [Ev.add (Item.ptr 1), Ev.tick] (NewController [])).2.w)
      ∧ gotItems (Run demoEnv [Ev.add (Item.ptr 1), Ev.tick] (NewController [])).2.w.calls
          = [Item.ptr 1]
      ∧ shutWorld.wq.shuttingDown = true ∧ shutWorld.wq.queue = []
      ∧ shutWorld.wq.Get = GetResult.shutDown
      ∧ processNextItem demoEnv shutWorld
          = (Outcome.returned false, shutWorld.log (Call.wqGet none))
      ∧ worker demoEnv shutWorld = some (WorkerEnd.exited, shutWorld.log (Call.wqGet none))
      ∧ shutWithWeb.wq.shuttingDown = true
      ∧ shutWithWeb.wq.Get ≠ GetResult.shutDown
      ∧ (worker demoEnv shutWithWeb).map Prod.fst = some WorkerEnd.exited
      ∧ (worker demoEnv shutWithWeb).map (fun r => gotItems r.2.calls) = some [Item.ptr 1]
      ∧ Run coldEnv [Ev.add (Item.ptr 1), Ev.tick] (NewController [])
          = (none, { w := [Ev.add (Item.ptr 1), Ev.tick].foldl duringSync (NewController []),
                     workerBlocked := false })
      ∧ [Ev.add (Item.ptr 1), Ev.tick].foldl duringSync (NewController []) = webQueued :=
  ⟨by decide,
   (run_leaves_queue_running demoEnv [Ev.add (Item.ptr 1), Ev.tick] (NewController [])).2.2.1
     (by decide),
   by decide, by decide, by decide,
   ((run_leaves_queue_running demoEnv [] (NewController [])).2.2.2.2.2.1 shutWorld).mpr
     ⟨by decide, by decide⟩,
   ((run_leaves_queue_running demoEnv [] (NewController [])).2.2.2.2.2.2.1 shutWorld
     (by decide) (by decide)).1,
   ((run_leaves_queue_running demoEnv [] (NewController [])).2.2.2.2.2.2.1 shutWorld
     (by decide) (by decide)).2,
   by decide, by decide,
   (run_leaves_queue_running demoEnv [] (NewController [])).2.2.2.2.2.2.2 shutWithWeb
     (by decide),
   by decide,
   (run_leaves_queue_running coldEnv [Ev.add (Item.ptr 1), Ev.tick] (NewController [])).2.2.2.2.1
     (fun _ _ => rfl),
   by decide⟩

/-- C9 fails on the code: on a fresh controller whose cache has synced and whose
channel is closed after one period, `Run` returns nil, but the queue is not shut
down, `Get` does not report shutdown, and the worker started by `Run` is left
suspended in `Get`. -/
theorem close_shuts_queue_counterexample :
    (Run demoEnv [Ev.tick] (NewController [])).1 = none
      ∧ (Run demoEnv [Ev.tick] (NewController [])).2.w.wq.shuttingDown = false
      ∧ (Run demoEnv [Ev.tick] (NewController [])).2.w.wq.Get ≠ GetResult.shutDown
      ∧ (Run demoEnv [Ev.tick] (NewController [])).2.workerBlocked = true
      ∧ (processNextItem demoEnv (Run demoEnv [Ev.tick] (NewController [])).2.w).1
          = Outcome.blocked := by
  decide

end DeployControl
